import Mathlib

/-!
Verification of the zerostate on-chain core against its specification.

The Rust pallets (escrow, vcg-auction, reputation, did, registry) are shallowly
embedded: storage maps become functions, balances become Nat with explicit
u128 checks where the source uses checked arithmetic, and each dispatchable
becomes a function from state to `Except Err State`.  The host (FRAME) applies
a dispatchable transactionally: an error aborts all writes, which the
specification states as a host guarantee; this is modelled by `runDispatch`.
-/

namespace ZeroState

/-- Upper bound of the u128 balance type. -/
def u128Limit : Nat := 2 ^ 128

/-- Upper bound of the u32 type. -/
def u32Limit : Nat := 2 ^ 32

/-- u128 checked multiplication. -/
def checkedMul (a b : Nat) : Option Nat :=
  if a * b < u128Limit then some (a * b) else none

/-- u128 checked division (fails only on division by zero). -/
def checkedDiv (a b : Nat) : Option Nat :=
  if b = 0 then none else some (a / b)

/-- u128 checked subtraction. -/
def checkedSub (a b : Nat) : Option Nat :=
  if b ≤ a then some (a - b) else none

/-- u128 checked addition. -/
def checkedAdd (a b : Nat) : Option Nat :=
  if a + b < u128Limit then some (a + b) else none

/-- u128 saturating addition. -/
def satAdd128 (a b : Nat) : Nat := min (a + b) (u128Limit - 1)

/-- u32 saturating addition. -/
def satAdd32 (a b : Nat) : Nat := min (a + b) (u32Limit - 1)

/-- Account identifier of the host ledger. -/
abbrev AccountId := Nat

/-- Balance in AINU tokens (u128 in the source). -/
abbrev Balance := Nat

/-- Free and reserved balance of one account (the collaborator currency state). -/
structure AccountData where
  free : Balance
  reserved : Balance
deriving DecidableEq, Repr

/-- The currency collaborator: per-account balances. -/
abbrev Balances := AccountId → AccountData

/-- Update one account entry. -/
def setBal (b : Balances) (who : AccountId) (d : AccountData) : Balances :=
  fun a => if a = who then d else b a

/-- Currency reserve: moves `v` from free to reserved, failing on insufficient
free balance (existential-deposit bookkeeping is not modelled). -/
def reserve (b : Balances) (who : AccountId) (v : Balance) : Option Balances :=
  let d := b who
  if v ≤ d.free then some (setBal b who ⟨d.free - v, d.reserved + v⟩) else none

/-- Currency unreserve: moves back at most `v` (never fails; caps at the
reserved amount, as the Substrate primitive does). -/
def unreserve (b : Balances) (who : AccountId) (v : Balance) : Balances :=
  let d := b who
  let actual := min v d.reserved
  setBal b who ⟨d.free + actual, d.reserved - actual⟩

/-- Currency transfer of `v` from the free balance of `src` to `dst`.
A self-transfer is a successful no-op. -/
def transfer (b : Balances) (src dst : AccountId) (v : Balance) : Option Balances :=
  let d := b src
  if v ≤ d.free then
    if src = dst then some b
    else
      let b1 := setBal b src ⟨d.free - v, d.reserved⟩
      let dd := b1 dst
      some (setBal b1 dst ⟨dd.free + v, dd.reserved⟩)
  else none

/-- DID byte strings (Vec of u8 in the source). -/
abbrev Did := List Nat

namespace Vcg

/-- A single bid in an auction (pallet-vcg-auction `Bid`). -/
structure Bid where
  agent_did : Did
  amount : Balance
  placed_at : Nat
deriving DecidableEq, Repr

/-- Result of the VCG mechanism (pallet-vcg-auction `VcgResult`). -/
structure VcgResult where
  winner_did : Did
  winning_bid : Balance
  payment_amount : Balance
  social_welfare : Balance
deriving DecidableEq, Repr

/-- Errors of `run_vcg_auction`. -/
inductive VcgError
  | NoBidsToFinalize
deriving DecidableEq, Repr

/-- The winner-selection loop: `for bid in bids { if bid.amount < lowest.amount
{ lowest = bid } }`. -/
def selectLowest (acc : Bid) : List Bid → Bid
  | [] => acc
  | b :: rest => selectLowest (if b.amount < acc.amount then b else acc) rest

/-- First payment loop: tracks `(second_lowest_amount, found_second)` over all
bids, taking any bid of another agent when none was found yet and otherwise
the minimum. -/
def secondPass1 (w : Did) : List Bid → Balance → Bool → Balance × Bool
  | [], s, f => (s, f)
  | b :: rest, s, f =>
      if b.agent_did ≠ w ∧ (¬ f ∨ b.amount < s) then
        secondPass1 w rest b.amount true
      else
        secondPass1 w rest s f

/-- Second payment loop, entered only when no other-agent bid was found. -/
def secondPass2 (w : Did) (lowestAmt : Balance) : List Bid → Balance → Balance
  | [], s => s
  | b :: rest, s =>
      if b.agent_did ≠ w ∧ (s = lowestAmt ∨ b.amount < s) then
        secondPass2 w lowestAmt rest b.amount
      else
        secondPass2 w lowestAmt rest s

/-- Social-welfare loop: saturating sum of the amounts of all bids by agents
other than the winner. -/
def socialWelfare (w : Did) : List Bid → Balance → Balance
  | [], s => s
  | b :: rest, s =>
      socialWelfare w rest (if b.agent_did ≠ w then satAdd128 s b.amount else s)

/-- pallet-vcg-auction `run_vcg_auction`: lowest bid wins, payment is derived
from the bids of the other agents. -/
def run_vcg_auction (bids : List Bid) : Except VcgError VcgResult :=
  match bids with
  | [] => .error .NoBidsToFinalize
  | b0 :: rest =>
      let lowest := selectLowest b0 (b0 :: rest)
      let second :=
        if (b0 :: rest).length = 1 then lowest.amount
        else
          let sf := secondPass1 lowest.agent_did (b0 :: rest) lowest.amount false
          if ¬ sf.2 then secondPass2 lowest.agent_did lowest.amount (b0 :: rest) sf.1
          else sf.1
      let sw := socialWelfare lowest.agent_did (b0 :: rest) 0
      .ok ⟨lowest.agent_did, lowest.amount, second, sw⟩

end Vcg

/-- Insert or overwrite one key of an optional map (StorageMap insert). -/
def mapInsert {α β : Type} [DecidableEq α] (m : α → Option β) (k : α) (v : β) :
    α → Option β :=
  fun x => if x = k then some v else m x

/-- Remove one key of an optional map (StorageMap remove). -/
def mapRemove {α β : Type} [DecidableEq α] (m : α → Option β) (k : α) :
    α → Option β :=
  fun x => if x = k then none else m x

/-- Update one key of a ValueQuery list map (StorageMap mutate). -/
def listMapSet {α β : Type} [DecidableEq α] (m : α → List β) (k : α) (l : List β) :
    α → List β :=
  fun x => if x = k then l else m x

namespace DidP

/-- pallet-did `DidDocument`: the 32-byte public key is opaque key material,
modelled as a Nat. -/
structure DidDocument where
  controller : AccountId
  public_key : Nat
  created_at : Nat
  updated_at : Nat
  active : Bool
deriving DecidableEq, Repr

/-- Configuration constants of pallet-did. -/
structure Config where
  maxDidLength : Nat

/-- Errors of pallet-did. -/
inductive Err
  | DidAlreadyExists
  | DidNotFound
  | NotDidController
  | DidInactive
  | InvalidDidFormat
  | DidTooLong
deriving DecidableEq, Repr

/-- Events of pallet-did. -/
inductive Event
  | DidCreated (did : Did) (controller : AccountId) (public_key : Nat)
  | DidUpdated (did : Did) (new_public_key : Nat)
  | DidRevoked (did : Did)
deriving DecidableEq, Repr

/-- State of pallet-did: the `DidDocuments` map, the reverse lookup, the
current block number and the event record. -/
structure State where
  block : Nat
  docs : Did → Option DidDocument
  accountToDid : AccountId → Option Did
  events : List Event

/-- pallet-did `is_did_active`: a DID is active when it fits the length bound,
exists and its document has `active = true`. -/
def is_did_active (maxDidLength : Nat) (docs : Did → Option DidDocument)
    (did : Did) : Bool :=
  if did.length ≤ maxDidLength then
    match docs did with
    | some doc => doc.active
    | none => false
  else false

/-- pallet-did `update_key`: only the controller of an active DID may replace
its public key; stamps `updated_at`. -/
def update_key (C : Config) (st : State) (who : AccountId) (did : Did)
    (new_public_key : Nat) : Except Err State :=
  if did.length ≤ C.maxDidLength then
    match st.docs did with
    | none => .error .DidNotFound
    | some doc =>
        if doc.controller = who then
          if doc.active then
            .ok { st with
                  docs := mapInsert st.docs did
                    { doc with public_key := new_public_key, updated_at := st.block }
                  events := st.events ++ [Event.DidUpdated did new_public_key] }
          else .error .DidInactive
        else .error .NotDidController
  else .error .DidTooLong

/-- pallet-did `revoke_did`: the controller marks the DID inactive; stamps
`updated_at`.  The source checks only the controller, not `active`. -/
def revoke_did (C : Config) (st : State) (who : AccountId) (did : Did) :
    Except Err State :=
  if did.length ≤ C.maxDidLength then
    match st.docs did with
    | none => .error .DidNotFound
    | some doc =>
        if doc.controller = who then
          .ok { st with
                docs := mapInsert st.docs did
                  { doc with active := false, updated_at := st.block }
                events := st.events ++ [Event.DidRevoked did] }
        else .error .NotDidController
  else .error .DidTooLong

end DidP

namespace Reg

/-- Capability byte strings. -/
abbrev Capability := List Nat

/-- pallet-registry `AgentCard`. -/
structure AgentCard where
  did : Did
  name : List Nat
  capabilities : List Capability
  wasm_hash : Nat
  price_per_task : Balance
  registered_at : Nat
  updated_at : Nat
  active : Bool
deriving DecidableEq, Repr

/-- Configuration constants of pallet-registry (with the inherited pallet-did
length bound). -/
structure Config where
  maxCapabilities : Nat
  maxNameLength : Nat
  maxCapabilityLength : Nat
  maxDidLength : Nat

/-- Errors of pallet-registry. -/
inductive Err
  | AgentAlreadyRegistered
  | AgentNotFound
  | InvalidDid
  | NotAgentOwner
  | TooManyCapabilities
  | NameTooLong
  | CapabilityTooLong
  | AgentInactive
deriving DecidableEq, Repr

/-- Events of pallet-registry. -/
inductive Event
  | AgentRegistered (did : Did) (wasm_hash : Nat)
  | AgentUpdated (did : Did)
  | AgentDeregistered (did : Did)
deriving DecidableEq, Repr

/-- State of pallet-registry, together with the pallet-did documents it reads
through `is_did_active`. -/
structure State where
  block : Nat
  agentCards : Did → Option AgentCard
  capabilityIndex : Capability → List Did
  didDocs : Did → Option DidP.DidDocument
  events : List Event

/-- The capability-index update loop of `register_agent`: appends the DID to
the inverted index of every capability, failing on the 1000-entry bound. -/
def indexCapabilities (did : Did) :
    (Capability → List Did) → List Capability → Except Err (Capability → List Did)
  | idx, [] => .ok idx
  | idx, cap :: rest =>
      if (idx cap).length < 1000 then
        indexCapabilities did (listMapSet idx cap (idx cap ++ [did])) rest
      else .error .TooManyCapabilities

/-- The per-capability length validation loop shared by `register_agent` and
`update_agent`. -/
def capsLengthOk (C : Config) (caps : List Capability) : Bool :=
  caps.all (fun cap => cap.length ≤ C.maxCapabilityLength)

/-- pallet-registry `register_agent`.  The signed caller is bound to `_who`
and never compared against the DID controller. -/
def register_agent (C : Config) (st : State) (who : AccountId) (did : Did)
    (name : List Nat) (capabilities : List Capability) (wasm_hash : Nat)
    (price_per_task : Balance) : Except Err State :=
  let _who := who
  if did.length ≤ C.maxDidLength then
    if DidP.is_did_active C.maxDidLength st.didDocs did then
      if (st.agentCards did).isSome then .error .AgentAlreadyRegistered
      else
        if name.length ≤ C.maxNameLength then
          if capabilities.length ≤ C.maxCapabilities then
            if capsLengthOk C capabilities then
              let card : AgentCard :=
                { did := did, name := name, capabilities := capabilities
                  wasm_hash := wasm_hash, price_per_task := price_per_task
                  registered_at := st.block, updated_at := st.block, active := true }
              match indexCapabilities did st.capabilityIndex capabilities with
              | .error e => .error e
              | .ok idx =>
                  .ok { st with
                        agentCards := mapInsert st.agentCards did card
                        capabilityIndex := idx
                        events := st.events ++ [Event.AgentRegistered did wasm_hash] }
            else .error .CapabilityTooLong
          else .error .TooManyCapabilities
        else .error .NameTooLong
    else .error .InvalidDid
  else .error .InvalidDid

/-- pallet-registry `update_agent`: replaces capabilities and price of an
active agent.  The signed caller is bound to `_who` and never used. -/
def update_agent (C : Config) (st : State) (who : AccountId) (did : Did)
    (new_capabilities : Option (List Capability)) (new_price_per_task : Option Balance) :
    Except Err State :=
  let _who := who
  if did.length ≤ C.maxDidLength then
    match st.agentCards did with
    | none => .error .AgentNotFound
    | some card =>
        if card.active then
          match new_capabilities with
          | some caps =>
              if caps.length ≤ C.maxCapabilities then
                if capsLengthOk C caps then
                  let card1 := { card with capabilities := caps }
                  let card2 :=
                    match new_price_per_task with
                    | some price => { card1 with price_per_task := price }
                    | none => card1
                  .ok { st with
                        agentCards := mapInsert st.agentCards did
                          { card2 with updated_at := st.block }
                        events := st.events ++ [Event.AgentUpdated did] }
                else .error .CapabilityTooLong
              else .error .TooManyCapabilities
          | none =>
              let card2 :=
                match new_price_per_task with
                | some price => { card with price_per_task := price }
                | none => card
              .ok { st with
                    agentCards := mapInsert st.agentCards did
                      { card2 with updated_at := st.block }
                    events := st.events ++ [Event.AgentUpdated did] }
        else .error .AgentInactive
  else .error .InvalidDid

/-- pallet-registry `deregister_agent`: marks any existing agent inactive.
The signed caller is bound to `_who` and never used; `active` is not checked. -/
def deregister_agent (C : Config) (st : State) (who : AccountId) (did : Did) :
    Except Err State :=
  let _who := who
  if did.length ≤ C.maxDidLength then
    match st.agentCards did with
    | none => .error .AgentNotFound
    | some card =>
        .ok { st with
              agentCards := mapInsert st.agentCards did
                { card with active := false, updated_at := st.block }
              events := st.events ++ [Event.AgentDeregistered did] }
  else .error .InvalidDid

end Reg

namespace Rep

/-- pallet-reputation `ReputationStake`. -/
structure ReputationStake where
  staked : Balance
  reputation : Nat
  tasks_completed : Nat
  tasks_failed : Nat
  slashed : Balance
  active_since : Nat
deriving DecidableEq, Repr

/-- Configuration constants of pallet-reputation. -/
structure Config where
  minReputationStake : Balance
  maxReputationScore : Nat
  treasuryAccount : AccountId

/-- Errors of pallet-reputation; `CurrencyError` stands for a propagated
error of the currency collaborator. -/
inductive Err
  | StakeTooLow
  | NoStake
  | InsufficientStake
  | ReputationAtMax
  | ReputationAtMin
  | CurrencyError
deriving DecidableEq, Repr

/-- Events of pallet-reputation. -/
inductive Event
  | ReputationBonded (agent : AccountId) (amount : Balance)
  | ReputationUnbonded (agent : AccountId) (amount : Balance)
  | TaskOutcomeReported (agent : AccountId) (task_id : List Nat) (success : Bool)
  | ReputationIncreased (agent : AccountId) (old_score new_score : Nat)
  | ReputationDecreased (agent : AccountId) (old_score new_score : Nat) (slashed : Balance)
  | SevereSlash (agent : AccountId) (slash_percentage : Nat)
deriving DecidableEq, Repr

/-- State of pallet-reputation. -/
structure State where
  balances : Balances
  block : Nat
  stakes : AccountId → Option ReputationStake
  events : List Event

/-- pallet-reputation `bond_reputation`: reserves `value` and initialises the
score to 500 whenever the recorded score is 0 (in particular on the first
bond, whose default record has score 0). -/
def bond_reputation (C : Config) (st : State) (who : AccountId) (value : Balance) :
    Except Err State :=
  if C.minReputationStake ≤ value then
    match reserve st.balances who value with
    | none => .error .CurrencyError
    | some bal1 =>
        let stake := (st.stakes who).getD
          { staked := 0, reputation := 0, tasks_completed := 0, tasks_failed := 0
            slashed := 0, active_since := st.block }
        let new_stake : ReputationStake :=
          { staked := satAdd128 stake.staked value
            reputation := if stake.reputation = 0 then 500 else stake.reputation
            tasks_completed := stake.tasks_completed
            tasks_failed := stake.tasks_failed
            slashed := stake.slashed
            active_since := if stake.reputation = 0 then st.block else stake.active_since }
        .ok { st with
              balances := bal1
              stakes := mapInsert st.stakes who new_stake
              events := st.events ++ [Event.ReputationBonded who value] }
  else .error .StakeTooLow

/-- pallet-reputation `unbond_reputation`. -/
def unbond_reputation (st : State) (who : AccountId) (value : Balance) :
    Except Err State :=
  match st.stakes who with
  | none => .error .NoStake
  | some stake =>
      if value ≤ stake.staked then
        let bal1 := unreserve st.balances who value
        let stake1 := { stake with staked := stake.staked - value }
        .ok { st with
              balances := bal1
              stakes := mapInsert st.stakes who stake1
              events := st.events ++ [Event.ReputationUnbonded who value] }
      else .error .InsufficientStake

/-- pallet-reputation `report_outcome` after the orchestrator-origin check
(the restricted origin itself is in scope of the host).  On success the score
grows by `10 - reputation/100` (u32 saturating), clamped at the maximum; on
failure the score loses 20 and 1 percent of the stake is slashed to the
treasury. -/
def report_outcome (C : Config) (st : State) (agent : AccountId)
    (task_id : List Nat) (success : Bool) : Except Err State :=
  match st.stakes agent with
  | none => .error .NoStake
  | some stake0 =>
      let old_reputation := stake0.reputation
      if success then
        let stake1 := { stake0 with tasks_completed := satAdd32 stake0.tasks_completed 1 }
        let reputation_gain := 10 - stake1.reputation / 100
        let new_reputation :=
          min (satAdd32 stake1.reputation reputation_gain) C.maxReputationScore
        let stake2 := { stake1 with reputation := new_reputation }
        let st1 :=
          { st with
            stakes := mapInsert st.stakes agent stake2
            events := st.events ++
              [Event.ReputationIncreased agent old_reputation new_reputation] }
        .ok { st1 with
              events := st1.events ++ [Event.TaskOutcomeReported agent task_id success] }
      else
        let stake1 := { stake0 with tasks_failed := satAdd32 stake0.tasks_failed 1 }
        let new_reputation := stake1.reputation - 20
        let stake2 := { stake1 with reputation := new_reputation }
        let slash_amount := stake2.staked / 100
        let stake3 :=
          { stake2 with
            staked := stake2.staked - slash_amount
            slashed := satAdd128 stake2.slashed slash_amount }
        let bal1 := unreserve st.balances agent slash_amount
        match transfer bal1 agent C.treasuryAccount slash_amount with
        | none => .error .CurrencyError
        | some bal2 =>
            let st1 :=
              { st with
                balances := bal2
                stakes := mapInsert st.stakes agent stake3
                events := st.events ++
                  [Event.ReputationDecreased agent old_reputation new_reputation
                    slash_amount] }
            .ok { st1 with
                  events := st1.events ++
                    [Event.TaskOutcomeReported agent task_id success] }

end Rep

namespace Esc

/-- Task identifiers are opaque 32-byte values compared only for equality;
modelled as Nat. -/
abbrev TaskId := Nat

/-- pallet-escrow `EscrowState`. -/
inductive EscrowState
  | Pending
  | Accepted
  | Completed
  | Refunded
  | Disputed
deriving DecidableEq, Repr

/-- pallet-escrow `ParticipantRole`. -/
inductive ParticipantRole
  | Payer
  | Payee
  | Arbiter
deriving DecidableEq, Repr

/-- pallet-escrow `EscrowParticipant`. -/
structure EscrowParticipant where
  account : AccountId
  role : ParticipantRole
  amount : Balance
  approved : Bool
deriving DecidableEq, Repr

/-- pallet-escrow `Milestone`. -/
structure Milestone where
  id : Nat
  description : List Nat
  amount : Balance
  completed : Bool
  approved_by : List AccountId
  required_approvals : Nat
deriving DecidableEq, Repr

/-- pallet-escrow `EscrowDetails`.  `task_hash` is opaque 32-byte data,
modelled as Nat. -/
structure EscrowDetails where
  task_id : TaskId
  user : AccountId
  agent_did : Option Did
  agent_account : Option AccountId
  amount : Balance
  fee_percent : Nat
  created_at : Nat
  expires_at : Nat
  state : EscrowState
  task_hash : Nat
  participants : List EscrowParticipant
  is_multi_party : Bool
  milestones : List Milestone
  is_milestone_based : Bool
  next_milestone_id : Nat
deriving DecidableEq, Repr

/-- phase3_batch_refund `RefundPolicyType`. -/
inductive RefundPolicyType
  | TimeBased (full_refund_deadline : Nat) (partial_refund_percentage : Nat)
  | Graduated (stages : List (Nat × Nat))
  | CancellationFee (fee_amount : Balance)
  | NoRefund (work_start_deadline : Nat)
  | Conditional (milestones_completed : Nat) (refund_percentages : List Nat)
  | DisputeBased
  | Standard
deriving DecidableEq, Repr

/-- phase3_batch_refund `RefundPolicy`. -/
structure RefundPolicy where
  policy_type : RefundPolicyType
  can_override : Bool
  override_authority : Option AccountId
  created_at : Nat
deriving DecidableEq, Repr

/-- phase3_batch_refund `BatchCreateEscrowRequest`. -/
structure BatchCreateEscrowRequest where
  task_id : TaskId
  amount : Balance
  task_hash : Nat
  timeout_blocks : Option Nat
  refund_policy : Option RefundPolicy
deriving DecidableEq, Repr

/-- Configuration constants of pallet-escrow. -/
structure Config where
  defaultTimeout : Nat
  protocolFeeAccount : AccountId
  maxEscrowAmount : Balance
  maxParticipants : Nat
  maxMilestones : Nat
  maxBatchSize : Nat
  maxDidLength : Nat

/-- Errors of pallet-escrow (the constructors exercised by the modelled
dispatches); `CurrencyError` stands for a propagated currency error. -/
inductive Err
  | EscrowAlreadyExists
  | EscrowNotFound
  | InsufficientBalance
  | AmountTooLarge
  | InvalidEscrowState
  | NotEscrowCreator
  | NotAssignedAgent
  | InvalidAgentDid
  | EscrowExpired
  | EscrowNotExpired
  | TooManyUserEscrows
  | TooManyAgentEscrows
  | ArithmeticOverflow
  | ParticipantNotFound
  | ParticipantAlreadyExists
  | TooManyParticipants
  | InsufficientApprovals
  | MilestoneNotFound
  | MilestoneAlreadyCompleted
  | MilestoneNotCompleted
  | TooManyMilestones
  | InvalidMilestone
  | AlreadyApproved
  | NotAuthorizedToApprove
  | BatchSizeExceeded
  | BatchAlreadyInProgress
  | BatchOperationFailed
  | InvalidBatchSize
  | InsufficientBalanceForBatch
  | InvalidRefundPolicy
  | RefundPolicyNotFound
  | CannotOverridePolicy
  | NotAuthorizedToOverride
  | InvalidRefundPercentage
  | GraduatedStagesInvalid
  | ConditionalMilestonesInvalid
  | CurrencyError
deriving DecidableEq, Repr

/-- The batch operation-type byte strings, modelled as an enum. -/
inductive OpType
  | create_escrow
  | release_payment
  | refund_escrow
  | dispute_escrow
deriving DecidableEq, Repr

/-- Numeric tag of an operation type, used by the batch-id encoding. -/
def OpType.tag : OpType → Nat
  | .create_escrow => 0
  | .release_payment => 1
  | .refund_escrow => 2
  | .dispute_escrow => 3

/-- Events of pallet-escrow (the constructors emitted by the modelled
dispatches).  Policy type names are carried as the policy-type tag. -/
inductive Event
  | EscrowCreated (task_id : TaskId) (user : AccountId) (amount : Balance)
  | TaskAccepted (task_id : TaskId) (agent_did : Did) (agent_account : AccountId)
  | PaymentReleased (task_id : TaskId) (agent : AccountId) (amount fee : Balance)
  | EscrowRefunded (task_id : TaskId) (user : AccountId) (amount : Balance)
  | DisputeRaised (task_id : TaskId) (raised_by : AccountId)
  | ParticipantAdded (task_id : TaskId) (participant : AccountId)
      (role : ParticipantRole) (amount : Balance)
  | ParticipantRemoved (task_id : TaskId) (participant : AccountId)
  | MilestoneAdded (task_id : TaskId) (milestone_id : Nat) (amount : Balance)
      (required_approvals : Nat)
  | MilestoneCompleted (task_id : TaskId) (milestone_id : Nat) (completed_by : AccountId)
  | MilestoneApproved (task_id : TaskId) (milestone_id : Nat) (approved_by : AccountId)
  | MilestonePaid (task_id : TaskId) (milestone_id : Nat) (amount : Balance)
      (recipient : AccountId)
  | BatchOperationCompleted (batch_id : Nat) (operation_type : OpType)
      (successful_operations failed_operations : Nat)
      (total_amount_processed : Balance)
  | BatchOperationFailed (batch_id : Nat) (operation_type : OpType)
      (failure_index : Nat)
  | RefundPolicySet (task_id : TaskId) (policy_type : RefundPolicyType)
      (can_override : Bool)
  | RefundPolicyUpdated (task_id : TaskId) (updated_by : AccountId)
  | RefundPolicyOverridden (task_id : TaskId)
      (original_amount override_amount : Balance) (overridden_by : AccountId)
deriving DecidableEq, Repr

/-- State of pallet-escrow, together with the currency balances, the block
number and the pallet-did documents read by `accept_task`. -/
structure State where
  balances : Balances
  block : Nat
  escrows : TaskId → Option EscrowDetails
  userEscrows : AccountId → List TaskId
  agentEscrows : Did → List TaskId
  participantEscrows : AccountId → List TaskId
  policies : TaskId → Option RefundPolicy
  batchInProgress : Nat → Option Nat
  batchCounters : Nat × Nat
  didDocs : Did → Option DidP.DidDocument
  events : List Event

/-- Append one deposited event. -/
def emit (st : State) (e : Event) : State :=
  { st with events := st.events ++ [e] }

/-- pallet-escrow `calculate_fee`: checked `amount * fee_percent / 100`. -/
def calculate_fee (amount : Balance) (fee_percent : Nat) : Except Err Balance :=
  match checkedMul amount fee_percent with
  | none => .error .ArithmeticOverflow
  | some v =>
      match checkedDiv v 100 with
      | none => .error .ArithmeticOverflow
      | some f => .ok f

/-- pallet-escrow `generate_batch_id`: the blake2-256 hash of the caller, the
operation tag, the block number and the first batch counter, modelled as a
deterministic pairing of the same inputs. -/
def generate_batch_id (user : AccountId) (op : OpType) (block : Nat)
    (total_batches : Nat) : Nat :=
  Nat.pair user (Nat.pair op.tag (Nat.pair block total_batches))

/-- pallet-escrow `increment_batch_counters` (u64 saturating; the counters
stay far from the bound in any reachable state, modelled as Nat addition). -/
def increment_batch_counters (st : State) (operations_count : Nat) : State :=
  { st with batchCounters :=
      (st.batchCounters.1 + 1, st.batchCounters.2 + operations_count) }

/-- pallet-escrow `can_override_policy`. -/
def can_override_policy (policy : RefundPolicy) (caller : AccountId) : Bool :=
  if policy.can_override then
    match policy.override_authority with
    | some authority => authority = caller
    | none => true
  else false

/-- The stage-validation loop of `validate_refund_policy` for Graduated
policies: deadlines strictly ascending from 0, percentages at most 100. -/
def validateStages : Nat → List (Nat × Nat) → Except Err Unit
  | _, [] => .ok ()
  | last_block, (block, percentage) :: rest =>
      if last_block < block then
        if percentage ≤ 100 then validateStages block rest
        else .error .InvalidRefundPercentage
      else .error .GraduatedStagesInvalid

/-- The percentage-validation loop of `validate_refund_policy` for
Conditional policies. -/
def validatePercentages : List Nat → Except Err Unit
  | [] => .ok ()
  | percentage :: rest =>
      if percentage ≤ 100 then validatePercentages rest
      else .error .InvalidRefundPercentage

/-- pallet-escrow `validate_refund_policy`. -/
def validate_refund_policy (policy : RefundPolicy) : Except Err Unit :=
  match policy.policy_type with
  | .TimeBased _ partial_refund_percentage =>
      if partial_refund_percentage ≤ 100 then .ok ()
      else .error .InvalidRefundPercentage
  | .Graduated stages =>
      if stages = [] then .error .GraduatedStagesInvalid
      else validateStages 0 stages
  | .Conditional _ refund_percentages =>
      if refund_percentages = [] then .error .ConditionalMilestonesInvalid
      else validatePercentages refund_percentages
  | .CancellationFee fee_amount =>
      if 0 < fee_amount then .ok () else .error .InvalidRefundPolicy
  | .NoRefund _ => .ok ()
  | .DisputeBased => .ok ()
  | .Standard => .ok ()

/-- Checked `amount * percentage / 100` as used by the refund evaluation. -/
def percentOf (amount : Balance) (percentage : Nat) : Except Err Balance :=
  match checkedMul amount percentage with
  | none => .error .ArithmeticOverflow
  | some v =>
      match checkedDiv v 100 with
      | none => .error .ArithmeticOverflow
      | some r => .ok r

/-- The stage-selection loop of the Graduated refund evaluation: starting
from 100, take the percentage of each stage whose deadline is strictly below
the current block, stopping at the first stage not yet passed. -/
def graduatedPct (current_block : Nat) : List (Nat × Nat) → Nat → Nat
  | [], refund_percentage => refund_percentage
  | (deadline, percentage) :: rest, refund_percentage =>
      if current_block ≤ deadline then refund_percentage
      else graduatedPct current_block rest percentage

/-- pallet-escrow `evaluate_refund_policy`. -/
def evaluate_refund_policy (st : State) (task_id : TaskId)
    (policy : RefundPolicy) (original_amount : Balance) : Except Err Balance :=
  match policy.policy_type with
  | .Standard => .ok original_amount
  | .TimeBased full_refund_deadline partial_refund_percentage =>
      if st.block ≤ full_refund_deadline then .ok original_amount
      else percentOf original_amount partial_refund_percentage
  | .Graduated stages =>
      percentOf original_amount (graduatedPct st.block stages 100)
  | .CancellationFee fee_amount =>
      .ok ((checkedSub original_amount fee_amount).getD 0)
  | .NoRefund work_start_deadline =>
      if st.block ≤ work_start_deadline then .ok original_amount else .ok 0
  | .Conditional milestones_completed refund_percentages =>
      match st.escrows task_id with
      | none => .error .EscrowNotFound
      | some escrow =>
          let completed_count := (escrow.milestones.filter (fun m => m.completed)).length
          let percentage :=
            if milestones_completed < refund_percentages.length then
              refund_percentages.getD (min completed_count milestones_completed) 0
            else 0
          percentOf original_amount percentage
  | .DisputeBased => .ok original_amount

/-- pallet-escrow `create_escrow`. -/
def create_escrow (C : Config) (st : State) (user : AccountId) (task_id : TaskId)
    (amount : Balance) (task_hash : Nat) (timeout_blocks : Option Nat) :
    Except Err State :=
  if 0 < amount then
    if amount ≤ C.maxEscrowAmount then
      if (st.escrows task_id).isSome then .error .EscrowAlreadyExists
      else
        match reserve st.balances user amount with
        | none => .error .InsufficientBalance
        | some bal1 =>
            let timeout := timeout_blocks.getD C.defaultTimeout
            let expires_at := st.block + timeout
            let escrow : EscrowDetails :=
              { task_id := task_id, user := user, agent_did := none
                agent_account := none, amount := amount, fee_percent := 5
                created_at := st.block, expires_at := expires_at
                state := .Pending, task_hash := task_hash
                participants := [], is_multi_party := false
                milestones := [], is_milestone_based := false
                next_milestone_id := 0 }
            let st1 :=
              { st with balances := bal1
                        escrows := mapInsert st.escrows task_id escrow }
            if (st1.userEscrows user).length < 1000 then
              let st2 :=
                { st1 with userEscrows :=
                    listMapSet st1.userEscrows user (st1.userEscrows user ++ [task_id]) }
              .ok (emit st2 (.EscrowCreated task_id user amount))
            else .error .TooManyUserEscrows
    else .error .AmountTooLarge
  else .error .InsufficientBalance

/-- pallet-escrow `accept_task`. -/
def accept_task (C : Config) (st : State) (agent_account : AccountId)
    (task_id : TaskId) (agent_did : Did) : Except Err State :=
  match st.escrows task_id with
  | none => .error .EscrowNotFound
  | some escrow =>
      if escrow.state = .Pending then
        if st.block < escrow.expires_at then
          if agent_did.length ≤ C.maxDidLength then
            if DidP.is_did_active C.maxDidLength st.didDocs agent_did then
              let escrow1 :=
                { escrow with state := .Accepted
                              agent_did := some agent_did
                              agent_account := some agent_account }
              let st1 := { st with escrows := mapInsert st.escrows task_id escrow1 }
              if (st1.agentEscrows agent_did).length < 1000 then
                let tasks1 := st1.agentEscrows agent_did ++ [task_id]
                let st2 :=
                  { st1 with agentEscrows := listMapSet st1.agentEscrows agent_did tasks1 }
                .ok (emit st2 (.TaskAccepted task_id agent_did agent_account))
              else .error .TooManyAgentEscrows
            else .error .InvalidAgentDid
          else .error .InvalidAgentDid
        else .error .EscrowExpired
      else .error .InvalidEscrowState

/-- pallet-escrow `release_payment`. -/
def release_payment (C : Config) (st : State) (caller : AccountId)
    (task_id : TaskId) : Except Err State :=
  match st.escrows task_id with
  | none => .error .EscrowNotFound
  | some escrow =>
      if escrow.user = caller then
        if escrow.state = .Accepted then
          match escrow.agent_account with
          | none => .error .InvalidEscrowState
          | some agent =>
              match calculate_fee escrow.amount escrow.fee_percent with
              | .error e => .error e
              | .ok fee_amount =>
                  match checkedSub escrow.amount fee_amount with
                  | none => .error .ArithmeticOverflow
                  | some net_amount =>
                      let bal1 := unreserve st.balances escrow.user escrow.amount
                      match transfer bal1 escrow.user agent net_amount with
                      | none => .error .CurrencyError
                      | some bal2 =>
                          match transfer bal2 escrow.user C.protocolFeeAccount
                              fee_amount with
                          | none => .error .CurrencyError
                          | some bal3 =>
                              let escrow1 := { escrow with state := .Completed }
                              let st1 :=
                                { st with balances := bal3
                                          escrows :=
                                            mapInsert st.escrows task_id escrow1 }
                              .ok (emit st1
                                (.PaymentReleased task_id agent net_amount fee_amount))
        else .error .InvalidEscrowState
      else .error .NotEscrowCreator

/-- pallet-escrow `refund_escrow`: note that it unreserves the full escrow
amount and does not consult the stored refund policy. -/
def refund_escrow (st : State) (caller : AccountId) (task_id : TaskId) :
    Except Err State :=
  match st.escrows task_id with
  | none => .error .EscrowNotFound
  | some escrow =>
      if escrow.state = .Pending ∨ escrow.state = .Accepted then
        let is_expired := escrow.expires_at ≤ st.block
        if escrow.state = .Pending ∧ escrow.user ≠ caller then
          .error .NotEscrowCreator
        else if escrow.state = .Accepted ∧ ¬ is_expired then
          .error .EscrowNotExpired
        else
          let bal1 := unreserve st.balances escrow.user escrow.amount
          let escrow1 := { escrow with state := .Refunded }
          let st1 :=
            { st with balances := bal1
                      escrows := mapInsert st.escrows task_id escrow1 }
          .ok (emit st1 (.EscrowRefunded task_id escrow1.user escrow1.amount))
      else .error .InvalidEscrowState

/-- pallet-escrow `dispute_escrow`. -/
def dispute_escrow (st : State) (caller : AccountId) (task_id : TaskId) :
    Except Err State :=
  match st.escrows task_id with
  | none => .error .EscrowNotFound
  | some escrow =>
      if escrow.state = .Accepted then
        if escrow.user = caller ∨ escrow.agent_account = some caller then
          let escrow1 := { escrow with state := .Disputed }
          let st1 := { st with escrows := mapInsert st.escrows task_id escrow1 }
          .ok (emit st1 (.DisputeRaised task_id caller))
        else .error .NotEscrowCreator
      else .error .InvalidEscrowState

/-- Find-and-remove of the first participant entry of an account
(`position` followed by `remove` in the source). -/
def removeFirstParticipant (account : AccountId) :
    List EscrowParticipant → Option (EscrowParticipant × List EscrowParticipant)
  | [] => none
  | p :: rest =>
      if p.account = account then some (p, rest)
      else
        match removeFirstParticipant account rest with
        | none => none
        | some (q, rest1) => some (q, p :: rest1)

/-- Find the first milestone with the given id (`iter().find` in the source). -/
def findMilestone (milestone_id : Nat) : List Milestone → Option Milestone
  | [] => none
  | m :: rest => if m.id = milestone_id then some m else findMilestone milestone_id rest

/-- Replace the first milestone with the given id (`iter_mut().find` in the
source), returning none when absent. -/
def updateFirstMilestone (milestone_id : Nat) (f : Milestone → Milestone) :
    List Milestone → Option (List Milestone)
  | [] => none
  | m :: rest =>
      if m.id = milestone_id then some (f m :: rest)
      else
        match updateFirstMilestone milestone_id f rest with
        | none => none
        | some rest1 => some (m :: rest1)

/-- pallet-escrow `add_participant`. -/
def add_participant (C : Config) (st : State) (caller : AccountId)
    (task_id : TaskId) (participant : AccountId) (role : ParticipantRole)
    (amount : Balance) : Except Err State :=
  match st.escrows task_id with
  | none => .error .EscrowNotFound
  | some escrow =>
      if escrow.user = caller then
        if escrow.state = .Pending then
          if 0 < amount then
            if escrow.participants.any (fun p => p.account = participant) then
              .error .ParticipantAlreadyExists
            else
              if escrow.participants.length < C.maxParticipants then
                let balRes :=
                  if role = .Payer then reserve st.balances participant amount
                  else some st.balances
                match balRes with
                | none => .error .InsufficientBalance
                | some bal1 =>
                    if escrow.participants.length < 10 then
                      let new_participant : EscrowParticipant :=
                        { account := participant, role := role
                          amount := amount, approved := false }
                      let escrow1 :=
                        { escrow with
                          participants := escrow.participants ++ [new_participant]
                          is_multi_party := true }
                      let st1 :=
                        { st with balances := bal1
                                  escrows := mapInsert st.escrows task_id escrow1 }
                      if (st1.participantEscrows participant).length < 1000 then
                        let tasks1 := st1.participantEscrows participant ++ [task_id]
                        let st2 :=
                          { st1 with participantEscrows :=
                              listMapSet st1.participantEscrows participant tasks1 }
                        .ok (emit st2
                          (.ParticipantAdded task_id participant role amount))
                      else .error .TooManyUserEscrows
                    else .error .TooManyParticipants
              else .error .TooManyParticipants
          else .error .InsufficientBalance
        else .error .InvalidEscrowState
      else .error .NotEscrowCreator

/-- pallet-escrow `remove_participant`. -/
def remove_participant (st : State) (caller : AccountId) (task_id : TaskId)
    (participant : AccountId) : Except Err State :=
  match st.escrows task_id with
  | none => .error .EscrowNotFound
  | some escrow =>
      if escrow.state = .Pending then
        if escrow.user = caller ∨ participant = caller then
          match removeFirstParticipant participant escrow.participants with
          | none => .error .ParticipantNotFound
          | some (removed, remaining) =>
              let bal1 :=
                if removed.role = .Payer then
                  unreserve st.balances participant removed.amount
                else st.balances
              let escrow1 :=
                { escrow with
                  participants := remaining
                  is_multi_party := if remaining = [] then false else escrow.is_multi_party }
              let st1 :=
                { st with balances := bal1
                          escrows := mapInsert st.escrows task_id escrow1 }
              .ok (emit st1 (.ParticipantRemoved task_id participant))
        else .error .NotEscrowCreator
      else .error .InvalidEscrowState

/-- pallet-escrow `add_milestone`. -/
def add_milestone (C : Config) (st : State) (caller : AccountId)
    (task_id : TaskId) (description : List Nat) (amount : Balance)
    (required_approvals : Nat) : Except Err State :=
  match st.escrows task_id with
  | none => .error .EscrowNotFound
  | some escrow =>
      if escrow.user = caller then
        if escrow.state = .Pending then
          if 0 < amount then
            if 0 < required_approvals then
              if escrow.milestones.length < C.maxMilestones then
                if description.length ≤ 256 then
                  if escrow.milestones.length < 20 then
                    let milestone : Milestone :=
                      { id := escrow.next_milestone_id, description := description
                        amount := amount, completed := false, approved_by := []
                        required_approvals := required_approvals }
                    let milestone_id := escrow.next_milestone_id
                    let escrow1 :=
                      { escrow with
                        milestones := escrow.milestones ++ [milestone]
                        is_milestone_based := true
                        next_milestone_id := satAdd32 escrow.next_milestone_id 1 }
                    let st1 := { st with escrows := mapInsert st.escrows task_id escrow1 }
                    .ok (emit st1
                      (.MilestoneAdded task_id milestone_id amount required_approvals))
                  else .error .TooManyMilestones
                else .error .InvalidMilestone
              else .error .TooManyMilestones
            else .error .InvalidMilestone
          else .error .InsufficientBalance
        else .error .InvalidEscrowState
      else .error .NotEscrowCreator

/-- pallet-escrow `complete_milestone`. -/
def complete_milestone (st : State) (caller : AccountId) (task_id : TaskId)
    (milestone_id : Nat) : Except Err State :=
  match st.escrows task_id with
  | none => .error .EscrowNotFound
  | some escrow =>
      if escrow.state = .Accepted then
        if escrow.agent_account = some caller then
          match findMilestone milestone_id escrow.milestones with
          | none => .error .MilestoneNotFound
          | some milestone =>
              if milestone.completed then .error .MilestoneAlreadyCompleted
              else
                match updateFirstMilestone milestone_id
                    (fun m => { m with completed := true }) escrow.milestones with
                | none => .error .MilestoneNotFound
                | some milestones1 =>
                    let escrow1 := { escrow with milestones := milestones1 }
                    let st1 :=
                      { st with escrows := mapInsert st.escrows task_id escrow1 }
                    .ok (emit st1 (.MilestoneCompleted task_id milestone_id caller))
        else .error .NotAssignedAgent
      else .error .InvalidEscrowState

/-- pallet-escrow `release_milestone_payment`: pays the milestone amount
minus fee out of the free balance of the escrow creator. -/
def release_milestone_payment (C : Config) (st : State) (escrow : EscrowDetails)
    (milestone_id : Nat) : Except Err State :=
  match findMilestone milestone_id escrow.milestones with
  | none => .error .MilestoneNotFound
  | some milestone =>
      match escrow.agent_account with
      | none => .error .InvalidEscrowState
      | some agent =>
          match calculate_fee milestone.amount escrow.fee_percent with
          | .error e => .error e
          | .ok fee_amount =>
              match checkedSub milestone.amount fee_amount with
              | none => .error .ArithmeticOverflow
              | some net_amount =>
                  match transfer st.balances escrow.user agent net_amount with
                  | none => .error .CurrencyError
                  | some bal1 =>
                      match transfer bal1 escrow.user C.protocolFeeAccount fee_amount with
                      | none => .error .CurrencyError
                      | some bal2 =>
                          .ok (emit { st with balances := bal2 }
                            (.MilestonePaid escrow.task_id milestone_id net_amount agent))

/-- pallet-escrow `approve_milestone`, including the automatic milestone
payment once the approval count reaches the requirement. -/
def approve_milestone (C : Config) (st : State) (caller : AccountId)
    (task_id : TaskId) (milestone_id : Nat) : Except Err State :=
  match st.escrows task_id with
  | none => .error .EscrowNotFound
  | some escrow =>
      if escrow.state = .Accepted then
        if escrow.user = caller ∨
            escrow.participants.any (fun p => p.account = caller) then
          match findMilestone milestone_id escrow.milestones with
          | none => .error .MilestoneNotFound
          | some milestone =>
              if milestone.completed then
                if caller ∈ milestone.approved_by then .error .AlreadyApproved
                else
                  if milestone.approved_by.length < 10 then
                    match updateFirstMilestone milestone_id
                        (fun m => { m with approved_by := m.approved_by ++ [caller] })
                        escrow.milestones with
                    | none => .error .MilestoneNotFound
                    | some milestones1 =>
                        let escrow1 := { escrow with milestones := milestones1 }
                        let approval_count := milestone.approved_by.length + 1
                        let should_pay := milestone.required_approvals ≤ approval_count
                        let st1 :=
                          { st with escrows := mapInsert st.escrows task_id escrow1 }
                        let st2 :=
                          emit st1 (.MilestoneApproved task_id milestone_id caller)
                        if should_pay then
                          release_milestone_payment C st2 escrow1 milestone_id
                        else .ok st2
                  else .error .TooManyUserEscrows
              else .error .MilestoneNotCompleted
          else .error .NotAuthorizedToApprove
      else .error .InvalidEscrowState

/-- pallet-escrow `set_refund_policy`. -/
def set_refund_policy (st : State) (caller : AccountId) (task_id : TaskId)
    (policy : RefundPolicy) : Except Err State :=
  match st.escrows task_id with
  | none => .error .EscrowNotFound
  | some escrow =>
      if escrow.user = caller then
        if escrow.state = .Pending then
          match validate_refund_policy policy with
          | .error e => .error e
          | .ok _ =>
              let st1 := { st with policies := mapInsert st.policies task_id policy }
              .ok (emit st1
                (.RefundPolicySet task_id policy.policy_type policy.can_override))
        else .error .InvalidEscrowState
      else .error .NotEscrowCreator

/-- pallet-escrow `update_refund_policy`. -/
def update_refund_policy (st : State) (caller : AccountId) (task_id : TaskId)
    (new_policy : RefundPolicy) : Except Err State :=
  match st.escrows task_id with
  | none => .error .EscrowNotFound
  | some escrow =>
      match st.policies task_id with
      | none => .error .RefundPolicyNotFound
      | some old_policy =>
          if escrow.user = caller ∨ can_override_policy old_policy caller then
            match validate_refund_policy new_policy with
            | .error e => .error e
            | .ok _ =>
                let st1 :=
                  { st with policies := mapInsert st.policies task_id new_policy }
                .ok (emit st1 (.RefundPolicyUpdated task_id caller))
          else .error .NotAuthorizedToOverride

/-- pallet-escrow `override_refund_amount`: note the absence of any escrow
state guard. -/
def override_refund_amount (C : Config) (st : State) (caller : AccountId)
    (task_id : TaskId) (override_amount : Balance) : Except Err State :=
  match st.escrows task_id with
  | none => .error .EscrowNotFound
  | some escrow =>
      match st.policies task_id with
      | none => .error .RefundPolicyNotFound
      | some policy =>
          if can_override_policy policy caller then
            if override_amount ≤ escrow.amount then
              let refund_amount := override_amount
              let bal1 := unreserve st.balances escrow.user escrow.amount
              let balRes :=
                if refund_amount < escrow.amount then
                  transfer bal1 escrow.user C.protocolFeeAccount
                    (escrow.amount - refund_amount)
                else some bal1
              match balRes with
              | none => .error .CurrencyError
              | some bal2 =>
                  let escrow1 := { escrow with state := .Refunded }
                  let st1 :=
                    { st with balances := bal2
                              escrows := mapInsert st.escrows task_id escrow1 }
                  let st2 :=
                    emit st1 (.RefundPolicyOverridden task_id escrow1.amount
                      refund_amount caller)
                  .ok (emit st2 (.EscrowRefunded task_id escrow1.user refund_amount))
            else .error .InvalidRefundPercentage
          else .error .CannotOverridePolicy

/-- Pre-validation loop of `batch_create_escrow`: basic checks, policy
validation and the checked total. -/
def bcValidate (C : Config) (st : State) :
    Balance → List BatchCreateEscrowRequest → Except Err Balance
  | total, [] => .ok total
  | total, request :: rest =>
      if 0 < request.amount then
        if request.amount ≤ C.maxEscrowAmount then
          if (st.escrows request.task_id).isSome then .error .EscrowAlreadyExists
          else
            let policyCheck :=
              match request.refund_policy with
              | some policy => validate_refund_policy policy
              | none => .ok ()
            match policyCheck with
            | .error e => .error e
            | .ok _ =>
                match checkedAdd total request.amount with
                | none => .error .ArithmeticOverflow
                | some total1 => bcValidate C st total1 rest
        else .error .AmountTooLarge
      else .error .InsufficientBalance

/-- Execution loop of `batch_create_escrow`: reserves and writes each escrow;
a reserve failure records the failure index and stops, a full user index
propagates its error. -/
def bcExecute (C : Config) (user : AccountId) (current_block : Nat) :
    State → Nat → Nat → List BatchCreateEscrowRequest →
    Except Err (State × Nat × Option Nat)
  | st, _, successful, [] => .ok (st, successful, none)
  | st, index, successful, request :: rest =>
      match reserve st.balances user request.amount with
      | none => .ok (st, successful, some index)
      | some bal1 =>
          let timeout := request.timeout_blocks.getD C.defaultTimeout
          let expires_at := current_block + timeout
          let escrow : EscrowDetails :=
            { task_id := request.task_id, user := user, agent_did := none
              agent_account := none, amount := request.amount, fee_percent := 5
              created_at := current_block, expires_at := expires_at
              state := .Pending, task_hash := request.task_hash
              participants := [], is_multi_party := false
              milestones := [], is_milestone_based := false
              next_milestone_id := 0 }
          let st1 :=
            { st with balances := bal1
                      escrows := mapInsert st.escrows request.task_id escrow }
          if (st1.userEscrows user).length < 1000 then
            let tasks1 := st1.userEscrows user ++ [request.task_id]
            let st2 := { st1 with userEscrows := listMapSet st1.userEscrows user tasks1 }
            let st3 :=
              match request.refund_policy with
              | some policy =>
                  { st2 with policies := mapInsert st2.policies request.task_id policy }
              | none => st2
            let st4 := emit st3 (.EscrowCreated request.task_id user request.amount)
            bcExecute C user current_block st4 (index + 1) (successful + 1) rest
          else .error .TooManyUserEscrows

/-- pallet-escrow `batch_create_escrow`.  A mid-execution reserve failure
deposits a `BatchOperationFailed` event and returns an error; the host then
aborts all of the writes of the dispatch. -/
def batch_create_escrow (C : Config) (st : State) (user : AccountId)
    (requests : List BatchCreateEscrowRequest) : Except Err State :=
  if requests.length ≤ C.maxBatchSize then
    if requests = [] then .error .InvalidBatchSize
    else
      let batch_id := generate_batch_id user .create_escrow st.block st.batchCounters.1
      if (st.batchInProgress batch_id).isSome then .error .BatchAlreadyInProgress
      else
        match bcValidate C st 0 requests with
        | .error e => .error e
        | .ok total_amount =>
            if total_amount ≤ (st.balances user).free then
              let st1 :=
                { st with batchInProgress :=
                    mapInsert st.batchInProgress batch_id st.block }
              match bcExecute C user st.block st1 0 0 requests with
              | .error e => .error e
              | .ok (st2, successful, failureIdx) =>
                  let st3 :=
                    { st2 with batchInProgress :=
                        mapRemove st2.batchInProgress batch_id }
                  let st4 := increment_batch_counters st3 requests.length
                  match failureIdx with
                  | some index =>
                      let _st5 :=
                        emit st4 (.BatchOperationFailed batch_id .create_escrow index)
                      .error .InsufficientBalance
                  | none =>
                      .ok (emit st4 (.BatchOperationCompleted batch_id .create_escrow
                        successful 0 total_amount))
            else .error .InsufficientBalanceForBatch
    else .error .BatchSizeExceeded

/-- Pre-validation loop of `batch_release_payment`. -/
def brValidate (st : State) (caller : AccountId) :
    Balance → List TaskId → Except Err Balance
  | total, [] => .ok total
  | total, task_id :: rest =>
      match st.escrows task_id with
      | none => .error .EscrowNotFound
      | some escrow =>
          if escrow.user = caller then
            if escrow.state = .Accepted then
              brValidate st caller (satAdd128 total escrow.amount) rest
            else .error .InvalidEscrowState
          else .error .NotEscrowCreator

/-- Execution loop of `batch_release_payment`. -/
def brExecute (C : Config) : State → Nat → List TaskId → Except Err (State × Nat)
  | st, successful, [] => .ok (st, successful)
  | st, successful, task_id :: rest =>
      match st.escrows task_id with
      | none => .error .EscrowNotFound
      | some escrow =>
          match escrow.agent_account with
          | none => .error .InvalidEscrowState
          | some agent =>
              match calculate_fee escrow.amount escrow.fee_percent with
              | .error e => .error e
              | .ok fee_amount =>
                  match checkedSub escrow.amount fee_amount with
                  | none => .error .ArithmeticOverflow
                  | some net_amount =>
                      let bal1 := unreserve st.balances escrow.user escrow.amount
                      match transfer bal1 escrow.user agent net_amount with
                      | none => .error .CurrencyError
                      | some bal2 =>
                          match transfer bal2 escrow.user C.protocolFeeAccount
                              fee_amount with
                          | none => .error .CurrencyError
                          | some bal3 =>
                              let escrow1 := { escrow with state := .Completed }
                              let st1 :=
                                { st with balances := bal3
                                          escrows :=
                                            mapInsert st.escrows task_id escrow1 }
                              let st2 :=
                                emit st1 (.PaymentReleased task_id agent net_amount
                                  fee_amount)
                              brExecute C st2 (successful + 1) rest

/-- pallet-escrow `batch_release_payment`. -/
def batch_release_payment (C : Config) (st : State) (caller : AccountId)
    (task_ids : List TaskId) : Except Err State :=
  if task_ids.length ≤ C.maxBatchSize then
    if task_ids = [] then .error .InvalidBatchSize
    else
      let batch_id :=
        generate_batch_id caller .release_payment st.block st.batchCounters.1
      match brValidate st caller 0 task_ids with
      | .error e => .error e
      | .ok total_amount =>
          match brExecute C st 0 task_ids with
          | .error e => .error e
          | .ok (st1, successful) =>
              .ok (emit st1 (.BatchOperationCompleted batch_id .release_payment
                successful 0 total_amount))
  else .error .BatchSizeExceeded

/-- Execution loop of `batch_refund_escrow`: per-item authorisation, refund
evaluation against the stored policy, unreserve and partial forfeiture. -/
def brfExecute (C : Config) (caller : AccountId) :
    State → Balance → Nat → List TaskId → Except Err (State × Balance × Nat)
  | st, total, successful, [] => .ok (st, total, successful)
  | st, total, successful, task_id :: rest =>
      match st.escrows task_id with
      | none => .error .EscrowNotFound
      | some escrow =>
          if escrow.state = .Pending ∨ escrow.state = .Accepted then
            let is_expired := escrow.expires_at ≤ st.block
            if escrow.state = .Pending ∧ escrow.user ≠ caller then
              .error .NotEscrowCreator
            else if escrow.state = .Accepted ∧ ¬ is_expired then
              .error .EscrowNotExpired
            else
              let refundRes :=
                match st.policies task_id with
                | some policy => evaluate_refund_policy st task_id policy escrow.amount
                | none => .ok escrow.amount
              match refundRes with
              | .error e => .error e
              | .ok refund_amount =>
                  let bal1 := unreserve st.balances escrow.user escrow.amount
                  let balRes :=
                    if 0 < refund_amount ∧ refund_amount < escrow.amount then
                      transfer bal1 escrow.user C.protocolFeeAccount
                        (escrow.amount - refund_amount)
                    else some bal1
                  match balRes with
                  | none => .error .CurrencyError
                  | some bal2 =>
                      let escrow1 := { escrow with state := .Refunded }
                      let st1 :=
                        { st with balances := bal2
                                  escrows := mapInsert st.escrows task_id escrow1 }
                      let st2 :=
                        emit st1 (.EscrowRefunded task_id escrow1.user refund_amount)
                      brfExecute C caller st2 (satAdd128 total refund_amount)
                        (successful + 1) rest
          else .error .InvalidEscrowState

/-- pallet-escrow `batch_refund_escrow`. -/
def batch_refund_escrow (C : Config) (st : State) (caller : AccountId)
    (task_ids : List TaskId) : Except Err State :=
  if task_ids.length ≤ C.maxBatchSize then
    if task_ids = [] then .error .InvalidBatchSize
    else
      let batch_id :=
        generate_batch_id caller .refund_escrow st.block st.batchCounters.1
      match brfExecute C caller st 0 0 task_ids with
      | .error e => .error e
      | .ok (st1, total_amount, successful) =>
          .ok (emit st1 (.BatchOperationCompleted batch_id .refund_escrow
            successful 0 total_amount))
  else .error .BatchSizeExceeded

/-- Execution loop of `batch_dispute_escrow`. -/
def bdExecute (caller : AccountId) :
    State → Nat → List TaskId → Except Err (State × Nat)
  | st, successful, [] => .ok (st, successful)
  | st, successful, task_id :: rest =>
      match st.escrows task_id with
      | none => .error .EscrowNotFound
      | some escrow =>
          if escrow.state = .Accepted then
            if escrow.user = caller ∨ escrow.agent_account = some caller then
              let escrow1 := { escrow with state := .Disputed }
              let st1 := { st with escrows := mapInsert st.escrows task_id escrow1 }
              let st2 := emit st1 (.DisputeRaised task_id caller)
              bdExecute caller st2 (successful + 1) rest
            else .error .NotEscrowCreator
          else .error .InvalidEscrowState

/-- pallet-escrow `batch_dispute_escrow`. -/
def batch_dispute_escrow (C : Config) (st : State) (caller : AccountId)
    (task_ids : List TaskId) : Except Err State :=
  if task_ids.length ≤ C.maxBatchSize then
    if task_ids = [] then .error .InvalidBatchSize
    else
      let batch_id :=
        generate_batch_id caller .dispute_escrow st.block st.batchCounters.1
      match bdExecute caller st 0 task_ids with
      | .error e => .error e
      | .ok (st1, successful) =>
          .ok (emit st1 (.BatchOperationCompleted batch_id .dispute_escrow
            successful 0 0))
  else .error .BatchSizeExceeded

/-- The transactional dispatch wrapper of the host: a dispatchable that
returns an error has all of its storage writes, currency effects and deposited
events aborted (FRAME runs every dispatchable inside a storage transaction;
the specification states this as a host guarantee). -/
def runDispatch (body : State → Except Err State) (st : State) :
    State × Option Err :=
  match body st with
  | .ok st1 => (st1, none)
  | .error e => (st, some e)

end Esc

namespace Vcg

/-- The amounts of all bids placed by agents other than `w` (the comparison
target for the payment rule, following the words of the specification). -/
def othersAmounts (w : Did) (bids : List Bid) : List Balance :=
  (bids.filter (fun b => b.agent_did ≠ w)).map Bid.amount

/-- Replace the amount of every bid of agent `w` by `a2`, leaving all other
bids unchanged: two bid lists that differ only in the bid value of `w`. -/
def retagWinner (bids : List Bid) (w : Did) (a2 : Balance) : List Bid :=
  bids.map (fun b => if b.agent_did = w then { b with amount := a2 } else b)

end Vcg

namespace Esc

/-- Spec-side Graduated refund percentage, following the words of the
specification: the percentage of the last stage whose deadline is strictly
below the current block, 100 when no stage has passed. -/
def lastPassedPct (current_block : Nat) (stages : List (Nat × Nat)) : Nat :=
  ((stages.filter (fun s => s.1 < current_block)).map Prod.snd).getLastD 100

/-- Terminal escrow states. -/
def isTerminal (s : EscrowState) : Prop :=
  s = .Completed ∨ s = .Refunded ∨ s = .Disputed

/-- All-zero balances. -/
def zeroBalances : Balances := fun _ => ⟨0, 0⟩

/-- A configuration used by the concrete scenarios. -/
def escConfig : Config :=
  { defaultTimeout := 100, protocolFeeAccount := 9, maxEscrowAmount := 1000000
    maxParticipants := 10, maxMilestones := 20, maxBatchSize := 50
    maxDidLength := 64 }

/-- Balances with account 1 holding 1000 free tokens. -/
def oneUserBalances : Balances := fun a => if a = 1 then ⟨1000, 0⟩ else ⟨0, 0⟩

/-- A fresh chain state at block 1 with account 1 funded. -/
def baseState : State :=
  { balances := oneUserBalances, block := 1, escrows := fun _ => none
    userEscrows := fun _ => [], agentEscrows := fun _ => []
    participantEscrows := fun _ => [], policies := fun _ => none
    batchInProgress := fun _ => none, batchCounters := (0, 0)
    didDocs := fun _ => none, events := [] }

/-- A CancellationFee refund policy with fee `F`. -/
def cancelPolicy (F : Balance) : RefundPolicy :=
  { policy_type := .CancellationFee F, can_override := false
    override_authority := none, created_at := 1 }

/-- A completed escrow of 500 tokens between user 1 and agent 2 on task 0. -/
def doneEscrow : EscrowDetails :=
  { task_id := 0, user := 1, agent_did := some [2], agent_account := some 2
    amount := 500, fee_percent := 5, created_at := 1, expires_at := 101
    state := .Completed, task_hash := 0, participants := []
    is_multi_party := false, milestones := [], is_milestone_based := false
    next_milestone_id := 0 }

/-- A state holding the completed escrow of task 0 together with an
overridable stored refund policy for it. -/
def termState : State :=
  { baseState with
    escrows := fun t => if t = 0 then some doneEscrow else none
    policies := fun t =>
      if t = 0 then
        some { policy_type := .DisputeBased, can_override := true
               override_authority := none, created_at := 1 }
      else none }

/-- The Graduated policy of the specification scenario. -/
def gradPolicy : RefundPolicy :=
  { policy_type := .Graduated [(50, 80), (100, 60), (150, 40)]
    can_override := false, override_authority := none, created_at := 1 }

/-- The base state moved to a given block number. -/
def stateAt (block : Nat) : State := { baseState with block := block }

/-- Balance view used by the refund round-trip statements: the free and
reserved balance of the user together with the free balance of the protocol
fee account. -/
def balanceView (C : Config) (u : AccountId) (s : State) : Balance × Balance × Balance :=
  ((s.balances u).free, (s.balances u).reserved,
    (s.balances C.protocolFeeAccount).free)

/-- The escrow record written by a successful `create_escrow`. -/
def pendingEscrowOf (C : Config) (st : State) (u : AccountId) (task : TaskId)
    (A : Balance) (hash : Nat) (tb : Option Nat) : EscrowDetails :=
  { task_id := task, user := u, agent_did := none, agent_account := none
    amount := A, fee_percent := 5, created_at := st.block
    expires_at := st.block + tb.getD C.defaultTimeout
    state := .Pending, task_hash := hash, participants := []
    is_multi_party := false, milestones := [], is_milestone_based := false
    next_milestone_id := 0 }

/-- The state after a successful `create_escrow`. -/
def afterCreateState (C : Config) (st : State) (u : AccountId) (task : TaskId)
    (A : Balance) (hash : Nat) (tb : Option Nat) : State :=
  { st with
    balances := setBal st.balances u
      ⟨(st.balances u).free - A, (st.balances u).reserved + A⟩
    escrows := mapInsert st.escrows task (pendingEscrowOf C st u task A hash tb)
    userEscrows := listMapSet st.userEscrows u (st.userEscrows u ++ [task])
    events := st.events ++ [.EscrowCreated task u A] }

/-- The state after `create_escrow` followed by a successful
`set_refund_policy`. -/
def afterPolicyState (C : Config) (st : State) (u : AccountId) (task : TaskId)
    (A : Balance) (hash : Nat) (tb : Option Nat) (policy : RefundPolicy) : State :=
  { afterCreateState C st u task A hash tb with
    policies := mapInsert (afterCreateState C st u task A hash tb).policies task policy
    events := (afterCreateState C st u task A hash tb).events ++
      [.RefundPolicySet task policy.policy_type policy.can_override] }

end Esc

namespace Rep

/-- A configuration used by the concrete scenarios. -/
def repConfig : Config :=
  { minReputationStake := 100, maxReputationScore := 1000, treasuryAccount := 8 }

/-- Balances with agent 5 holding 1000 free and 100 reserved tokens. -/
def repBalances : Balances := fun a => if a = 5 then ⟨1000, 100⟩ else ⟨0, 0⟩

/-- A stake record with reputation exactly 100. -/
def stakeAt100 : ReputationStake :=
  { staked := 100, reputation := 100, tasks_completed := 0, tasks_failed := 0
    slashed := 0, active_since := 0 }

/-- A stake record with reputation 0 (as left behind by slashing). -/
def stakeAt0 : ReputationStake :=
  { staked := 100, reputation := 0, tasks_completed := 2, tasks_failed := 3
    slashed := 5, active_since := 7 }

/-- A state with agent 5 holding the given stake record. -/
def repState (s : ReputationStake) : State :=
  { balances := repBalances, block := 11
    stakes := fun a => if a = 5 then some s else none, events := [] }

/-- A state with no stake records. -/
def repEmptyState : State :=
  { balances := repBalances, block := 11, stakes := fun _ => none, events := [] }

end Rep

namespace DidP

/-- A configuration used by the concrete scenarios. -/
def didConfig : Config := { maxDidLength := 64 }

/-- A revoked DID document controlled by account 7. -/
def inactiveDoc : DidDocument :=
  { controller := 7, public_key := 1, created_at := 0, updated_at := 5
    active := false }

/-- An active DID document controlled by account 7. -/
def activeDoc : DidDocument :=
  { controller := 7, public_key := 1, created_at := 0, updated_at := 5
    active := true }

/-- A state holding the given document under DID [9]. -/
def didState (doc : DidDocument) : State :=
  { block := 20, docs := fun d => if d = [9] then some doc else none
    accountToDid := fun _ => none, events := [] }

end DidP

namespace Reg

/-- A configuration used by the concrete scenarios. -/
def regConfig : Config :=
  { maxCapabilities := 16, maxNameLength := 64, maxCapabilityLength := 32
    maxDidLength := 64 }

/-- An active agent card for DID [9]. -/
def regCard : AgentCard :=
  { did := [9], name := [1], capabilities := [[2]], wasm_hash := 0
    price_per_task := 10, registered_at := 1, updated_at := 1, active := true }

/-- A state holding the agent card for DID [9] and nothing else. -/
def regState : State :=
  { block := 30, agentCards := fun d => if d = [9] then some regCard else none
    capabilityIndex := fun _ => [], didDocs := fun _ => none, events := [] }

end Reg

/-! Theorems: VCG auction (claims C4 and C5). -/

namespace Vcg

theorem selectLowest_min : ∀ (l : List Bid) (acc : Bid),
    (selectLowest acc l).amount ≤ acc.amount ∧
      ∀ b ∈ l, (selectLowest acc l).amount ≤ b.amount := by
  intro l
  induction l with
  | nil => intro acc; exact ⟨le_rfl, by simp⟩
  | cons b t ih =>
      intro acc
      simp only [selectLowest]
      by_cases h : b.amount < acc.amount
      · rw [if_pos h]
        obtain ⟨h1, h2⟩ := ih b
        refine ⟨h1.trans h.le, ?_⟩
        intro c hc
        rcases List.mem_cons.mp hc with rfl | hc
        · exact h1
        · exact h2 c hc
      · rw [if_neg h]
        obtain ⟨h1, h2⟩ := ih acc
        refine ⟨h1, ?_⟩
        intro c hc
        rcases List.mem_cons.mp hc with rfl | hc
        · exact h1.trans (not_lt.mp h)
        · exact h2 c hc

theorem selectLowest_first : ∀ (l : List Bid) (acc : Bid),
    ∃ l₁ l₂, acc :: l = l₁ ++ selectLowest acc l :: l₂ ∧
      ∀ b ∈ l₁, (selectLowest acc l).amount < b.amount := by
  intro l
  induction l with
  | nil => intro acc; exact ⟨[], [], by simp [selectLowest], by simp⟩
  | cons b t ih =>
      intro acc
      simp only [selectLowest]
      by_cases h : b.amount < acc.amount
      · rw [if_pos h]
        obtain ⟨l₁, l₂, he, hlt⟩ := ih b
        refine ⟨acc :: l₁, l₂, ?_, ?_⟩
        · rw [List.cons_append, ← he]
        · intro c hc
          rcases List.mem_cons.mp hc with rfl | hc
          · exact lt_of_le_of_lt (selectLowest_min t b).1 h
          · exact hlt c hc
      · rw [if_neg h]
        obtain ⟨l₁, l₂, he, hlt⟩ := ih acc
        cases l₁ with
        | nil =>
            simp only [List.nil_append] at he
            injection he with h1 h2
            refine ⟨[], b :: l₂, ?_, by simp⟩
            rw [List.nil_append, ← h1, h2]
        | cons a l₁' =>
            rw [List.cons_append] at he
            injection he with h1 h2
            have hacc : (selectLowest acc t).amount < acc.amount := by
              apply hlt
              rw [h1]; exact List.mem_cons_self a l₁'
            refine ⟨acc :: b :: l₁', l₂, ?_, ?_⟩
            · simp only [List.cons_append]
              conv_lhs => rw [h2]
            · intro c hc
              rcases List.mem_cons.mp hc with rfl | hc
              · exact hacc
              rcases List.mem_cons.mp hc with rfl | hc
              · exact lt_of_lt_of_le hacc (not_lt.mp h)
              · exact hlt c (List.mem_cons_of_mem a hc)

theorem othersAmounts_cons_skip (w : Did) (b : Bid) (t : List Bid)
    (hb : b.agent_did = w) : othersAmounts w (b :: t) = othersAmounts w t := by
  simp [othersAmounts, List.filter_cons, hb]

theorem othersAmounts_cons_keep (w : Did) (b : Bid) (t : List Bid)
    (hb : b.agent_did ≠ w) :
    othersAmounts w (b :: t) = b.amount :: othersAmounts w t := by
  simp [othersAmounts, List.filter_cons, hb]

theorem secondPass1_true (w : Did) :
    ∀ (l : List Bid) (s : Balance),
      secondPass1 w l s true = ((othersAmounts w l).foldl min s, true) := by
  intro l
  induction l with
  | nil => intro s; rfl
  | cons b t ih =>
      intro s
      by_cases hb : b.agent_did = w
      · rw [othersAmounts_cons_skip w b t hb]
        simp only [secondPass1]
        rw [if_neg (by simp [hb])]
        exact ih s
      · rw [othersAmounts_cons_keep w b t hb, List.foldl_cons]
        by_cases ha : b.amount < s
        · simp only [secondPass1]
          rw [if_pos ⟨hb, Or.inr ha⟩]
          rw [ih b.amount]
          have : min s b.amount = b.amount := min_eq_right ha.le
          rw [this]
        · simp only [secondPass1]
          rw [if_neg (by simp [hb, ha])]
          rw [ih s]
          have : min s b.amount = s := min_eq_left (not_lt.mp ha)
          rw [this]

theorem secondPass1_false (w : Did) :
    ∀ (l : List Bid) (s : Balance),
      secondPass1 w l s false =
        match othersAmounts w l with
        | [] => (s, false)
        | a :: as => (as.foldl min a, true) := by
  intro l
  induction l with
  | nil => intro s; rfl
  | cons b t ih =>
      intro s
      by_cases hb : b.agent_did = w
      · rw [othersAmounts_cons_skip w b t hb]
        simp only [secondPass1]
        rw [if_neg (by simp [hb])]
        exact ih s
      · rw [othersAmounts_cons_keep w b t hb]
        simp only [secondPass1]
        rw [if_pos ⟨hb, Or.inl (by simp)⟩]
        exact secondPass1_true w t b.amount

theorem secondPass2_noop (w : Did) (la : Balance) :
    ∀ (l : List Bid) (s : Balance), othersAmounts w l = [] →
      secondPass2 w la l s = s := by
  intro l
  induction l with
  | nil => intro s _; rfl
  | cons b t ih =>
      intro s hempty
      by_cases hb : b.agent_did = w
      · rw [othersAmounts_cons_skip w b t hb] at hempty
        simp only [secondPass2]
        rw [if_neg (by simp [hb])]
        exact ih s hempty
      · rw [othersAmounts_cons_keep w b t hb] at hempty
        cases hempty

theorem foldl_min_le : ∀ (l : List Nat) (a : Nat),
    l.foldl min a ≤ a ∧ ∀ x ∈ l, l.foldl min a ≤ x := by
  intro l
  induction l with
  | nil => intro a; exact ⟨le_rfl, by simp⟩
  | cons b t ih =>
      intro a
      rw [List.foldl_cons]
      obtain ⟨h1, h2⟩ := ih (min a b)
      refine ⟨h1.trans (min_le_left a b), ?_⟩
      intro x hx
      rcases List.mem_cons.mp hx with rfl | hx
      · exact h1.trans (min_le_right a x)
      · exact h2 x hx

theorem foldl_min_mem : ∀ (l : List Nat) (a : Nat),
    l.foldl min a = a ∨ l.foldl min a ∈ l := by
  intro l
  induction l with
  | nil => intro a; exact Or.inl rfl
  | cons b t ih =>
      intro a
      rw [List.foldl_cons]
      rcases ih (min a b) with h | h
      · rcases min_choice a b with hm | hm
        · exact Or.inl (h.trans hm)
        · exact Or.inr (by rw [h.trans hm]; exact List.mem_cons_self b t)
      · exact Or.inr (List.mem_cons_of_mem b h)

theorem selectLowest_cons_self (b0 : Bid) (rest : List Bid) :
    selectLowest b0 (b0 :: rest) = selectLowest b0 rest := by
  simp [selectLowest]

theorem secondFull (w : Did) (l : List Bid) (la : Balance) :
    (if ¬(secondPass1 w l la false).2 = true then
       secondPass2 w la l (secondPass1 w l la false).1
     else (secondPass1 w l la false).1) =
    (match othersAmounts w l with
     | [] => la
     | a :: as => as.foldl min a) := by
  rw [secondPass1_false w l la]
  cases hoth : othersAmounts w l with
  | nil =>
      simp only [Bool.not_false, not_false_eq_true, if_pos]
      exact secondPass2_noop w la l la hoth
  | cons a as =>
      simp

theorem othersAmounts_single (b0 : Bid) :
    othersAmounts (selectLowest b0 [b0]).agent_did [b0] = [] := by
  simp [selectLowest, othersAmounts]

theorem run_vcg_winner (b0 : Bid) (rest : List Bid) (r : VcgResult)
    (hr : run_vcg_auction (b0 :: rest) = .ok r) :
    r.winner_did = (selectLowest b0 (b0 :: rest)).agent_did ∧
      r.winning_bid = (selectLowest b0 (b0 :: rest)).amount := by
  simp only [run_vcg_auction] at hr
  obtain rfl := Except.ok.inj hr
  exact ⟨rfl, rfl⟩

theorem run_vcg_payment (b0 : Bid) (rest : List Bid) (r : VcgResult)
    (hr : run_vcg_auction (b0 :: rest) = .ok r) :
    r.payment_amount =
      if (b0 :: rest).length = 1 then (selectLowest b0 (b0 :: rest)).amount
      else
        match othersAmounts (selectLowest b0 (b0 :: rest)).agent_did (b0 :: rest) with
        | [] => (selectLowest b0 (b0 :: rest)).amount
        | a :: as => as.foldl min a := by
  simp only [run_vcg_auction] at hr
  obtain rfl := Except.ok.inj hr
  show (if (b0 :: rest).length = 1 then (selectLowest b0 (b0 :: rest)).amount
      else _) = _
  by_cases hlen : (b0 :: rest).length = 1
  · rw [if_pos hlen, if_pos hlen]
  · rw [if_neg hlen, if_neg hlen]
    exact secondFull _ _ _

theorem run_payment_spec (b0 : Bid) (rest : List Bid) (r : VcgResult)
    (hr : run_vcg_auction (b0 :: rest) = .ok r) :
    (othersAmounts r.winner_did (b0 :: rest) = [] →
        r.payment_amount = r.winning_bid) ∧
    (othersAmounts r.winner_did (b0 :: rest) ≠ [] →
      r.payment_amount ∈ othersAmounts r.winner_did (b0 :: rest) ∧
      ∀ x ∈ othersAmounts r.winner_did (b0 :: rest), r.payment_amount ≤ x) := by
  obtain ⟨hw, hwb⟩ := run_vcg_winner b0 rest r hr
  have hp := run_vcg_payment b0 rest r hr
  rw [hw, hwb]
  constructor
  · intro hempty
    rw [hempty] at hp
    by_cases hlen : (b0 :: rest).length = 1
    · rw [if_pos hlen] at hp
      rw [hp]
    · rw [if_neg hlen] at hp
      rw [hp]
  · intro hne
    cases hoth : othersAmounts (selectLowest b0 (b0 :: rest)).agent_did (b0 :: rest) with
    | nil => exact absurd hoth hne
    | cons a as =>
        have hlen : (b0 :: rest).length ≠ 1 := by
          intro h1
          have hrest : rest = [] := by simpa using h1
          subst hrest
          rw [othersAmounts_single b0] at hoth
          cases hoth
        rw [if_neg hlen, hoth] at hp
        rw [hp]
        constructor
        · show List.foldl min a as ∈ a :: as
          rcases foldl_min_mem as a with h | h
          · rw [h]; exact List.mem_cons_self a as
          · exact List.mem_cons_of_mem a h
        · show ∀ x ∈ a :: as, List.foldl min a as ≤ x
          intro x hx
          rcases List.mem_cons.mp hx with h | hx
          · rw [h]; exact (foldl_min_le as a).1
          · exact (foldl_min_le as a).2 x hx

/-- C4: for every non-empty bid list, `run_vcg_auction` makes the
first-inserted minimal bid the winner (first wins ties), the payment is the
lowest amount among the bids of other bidders when such bids exist, and with
exactly one bid the payment is that bid. -/
theorem C4_vcg_winner_and_payment (b0 : Bid) (rest : List Bid) :
    ∃ r w l₁ l₂,
      run_vcg_auction (b0 :: rest) = .ok r ∧
      b0 :: rest = l₁ ++ w :: l₂ ∧
      r.winner_did = w.agent_did ∧
      r.winning_bid = w.amount ∧
      (∀ b ∈ b0 :: rest, w.amount ≤ b.amount) ∧
      (∀ b ∈ l₁, w.amount < b.amount) ∧
      (othersAmounts w.agent_did (b0 :: rest) ≠ [] →
        r.payment_amount ∈ othersAmounts w.agent_did (b0 :: rest) ∧
        ∀ x ∈ othersAmounts w.agent_did (b0 :: rest), r.payment_amount ≤ x) ∧
      (rest = [] → r.payment_amount = b0.amount) := by
  obtain ⟨l₁, l₂, he, hlt⟩ := selectLowest_first rest b0
  have hrun : ∃ r, run_vcg_auction (b0 :: rest) = .ok r := by
    simp only [run_vcg_auction]
    exact ⟨_, rfl⟩
  obtain ⟨r, hr⟩ := hrun
  have hwin : r.winner_did = (selectLowest b0 rest).agent_did ∧
      r.winning_bid = (selectLowest b0 rest).amount := by
    have h0 := run_vcg_winner b0 rest r hr
    rw [selectLowest_cons_self] at h0
    exact h0
  refine ⟨r, selectLowest b0 rest, l₁, l₂, hr, he, hwin.1, hwin.2, ?_, hlt, ?_, ?_⟩
  · intro b hb
    obtain ⟨h1, h2⟩ := selectLowest_min rest b0
    rcases List.mem_cons.mp hb with rfl | hb
    · exact h1
    · exact h2 b hb
  · intro hne
    have := (run_payment_spec b0 rest r hr).2
    rw [hwin.1] at this
    exact this hne
  · intro hrest
    subst hrest
    have hp := run_vcg_payment b0 [] r hr
    rw [if_pos (show ([b0] : List Bid).length = 1 from rfl)] at hp
    rw [hp]
    simp [selectLowest]

/-- C4 witness: the tied-lowest three-bid scenario of the specification. -/
theorem C4_vcg_winner_and_payment_witness :
    ∃ r w l₁ l₂,
      run_vcg_auction [⟨[1], 100, 0⟩, ⟨[2], 100, 0⟩, ⟨[3], 200, 0⟩] = .ok r ∧
      ([⟨[1], 100, 0⟩, ⟨[2], 100, 0⟩, ⟨[3], 200, 0⟩] : List Bid) = l₁ ++ w :: l₂ ∧
      r.winner_did = w.agent_did ∧
      r.winning_bid = w.amount ∧
      (∀ b ∈ ([⟨[1], 100, 0⟩, ⟨[2], 100, 0⟩, ⟨[3], 200, 0⟩] : List Bid),
        w.amount ≤ b.amount) ∧
      (∀ b ∈ l₁, w.amount < b.amount) ∧
      (othersAmounts w.agent_did [⟨[1], 100, 0⟩, ⟨[2], 100, 0⟩, ⟨[3], 200, 0⟩] ≠ [] →
        r.payment_amount ∈
          othersAmounts w.agent_did [⟨[1], 100, 0⟩, ⟨[2], 100, 0⟩, ⟨[3], 200, 0⟩] ∧
        ∀ x ∈ othersAmounts w.agent_did [⟨[1], 100, 0⟩, ⟨[2], 100, 0⟩, ⟨[3], 200, 0⟩],
          r.payment_amount ≤ x) ∧
      (([⟨[2], 100, 0⟩, ⟨[3], 200, 0⟩] : List Bid) = [] → r.payment_amount = 100) :=
  C4_vcg_winner_and_payment ⟨[1], 100, 0⟩ [⟨[2], 100, 0⟩, ⟨[3], 200, 0⟩]

theorem othersAmounts_retag (w : Did) (a2 : Balance) :
    ∀ bids, othersAmounts w (retagWinner bids w a2) = othersAmounts w bids := by
  intro bids
  induction bids with
  | nil => rfl
  | cons b t ih =>
      simp only [retagWinner, List.map_cons] at ih ⊢
      by_cases hb : b.agent_did = w
      · rw [if_pos hb]
        rw [othersAmounts_cons_skip w { b with amount := a2 } _ hb]
        rw [othersAmounts_cons_skip w b t hb]
        exact ih
      · rw [if_neg hb]
        rw [othersAmounts_cons_keep w b _ hb]
        rw [othersAmounts_cons_keep w b t hb]
        rw [ih]

/-- C5 counterexample: with a single bid the payment is the bid itself, so
changing the winning bidder's own amount changes the payment even though the
same bidder wins both runs. -/
theorem C5_counterexample :
    run_vcg_auction [⟨[1], 100, 0⟩] = .ok ⟨[1], 100, 100, 0⟩ ∧
    retagWinner [⟨[1], 100, 0⟩] [1] 50 = [⟨[1], 50, 0⟩] ∧
    run_vcg_auction [⟨[1], 50, 0⟩] = .ok ⟨[1], 50, 50, 0⟩ ∧
    (100 : Balance) ≠ 50 :=
  ⟨rfl, rfl, rfl, by decide⟩

/-- C5 (amended): when at least one bid by another bidder exists, the payment
computed by `run_vcg_auction` is independent of the winning bidder's own bid
value: a second run on the list with the winner's amount replaced, won by the
same bidder, yields the same payment. -/
theorem C5_vcg_payment_independent (bids : List Bid) (a2 : Balance)
    (r r2 : VcgResult)
    (h1 : run_vcg_auction bids = .ok r)
    (h2 : run_vcg_auction (retagWinner bids r.winner_did a2) = .ok r2)
    (hw : r2.winner_did = r.winner_did)
    (hne : othersAmounts r.winner_did bids ≠ []) :
    r2.payment_amount = r.payment_amount := by
  cases bids with
  | nil => simp [run_vcg_auction] at h1
  | cons b0 rest =>
      have hs1 := run_payment_spec b0 rest r h1
      cases hretag : retagWinner (b0 :: rest) r.winner_did a2 with
      | nil => simp [retagWinner] at hretag
      | cons c0 crest =>
          rw [hretag] at h2
          have hs2 := run_payment_spec c0 crest r2 h2
          rw [← hretag, hw, othersAmounts_retag r.winner_did a2 (b0 :: rest)] at hs2
          obtain ⟨hmem1, hle1⟩ := hs1.2 hne
          obtain ⟨hmem2, hle2⟩ := hs2.2 hne
          exact Nat.le_antisymm (hle2 _ hmem1) (hle1 _ hmem2)

/-- C5 witness: two bidders, the winner re-bids 120 instead of 100, the
payment stays 150. -/
theorem C5_vcg_payment_independent_witness : (150 : Balance) = 150 :=
  C5_vcg_payment_independent [⟨[1], 100, 0⟩, ⟨[2], 150, 0⟩] 120
    ⟨[1], 100, 150, 150⟩ ⟨[1], 120, 150, 150⟩ rfl rfl rfl (by decide)

end Vcg

/-! Theorems: Graduated refund policies (claim C6). -/

namespace Esc

theorem validateStages_ok : ∀ (stages : List (Nat × Nat)) (last_block : Nat),
    validateStages last_block stages = .ok () →
    List.Pairwise (fun a c => a.1 < c.1) stages ∧
      (∀ s ∈ stages, last_block < s.1) ∧ (∀ s ∈ stages, s.2 ≤ 100) := by
  intro stages
  induction stages with
  | nil => intro last h; exact ⟨List.Pairwise.nil, by simp, by simp⟩
  | cons s rest ih =>
      intro last h
      obtain ⟨d, p⟩ := s
      simp only [validateStages] at h
      by_cases h1 : last < d
      · rw [if_pos h1] at h
        by_cases h2 : p ≤ 100
        · rw [if_pos h2] at h
          obtain ⟨hpw, hgt, hp100⟩ := ih d h
          refine ⟨List.Pairwise.cons ?_ hpw, ?_, ?_⟩
          · intro s2 hs2; exact hgt s2 hs2
          · intro s2 hs2
            rcases List.mem_cons.mp hs2 with h3 | h3
            · rw [h3]; exact h1
            · exact lt_trans h1 (hgt s2 h3)
          · intro s2 hs2
            rcases List.mem_cons.mp hs2 with h3 | h3
            · rw [h3]; exact h2
            · exact hp100 s2 h3
        · rw [if_neg h2] at h; cases h
      · rw [if_neg h1] at h; cases h

theorem getLastD_cases : ∀ (l : List Nat) (d : Nat),
    l.getLastD d = d ∨ l.getLastD d ∈ l := by
  intro l
  induction l with
  | nil => intro d; exact Or.inl rfl
  | cons a t ih =>
      intro d
      rw [List.getLastD_cons]
      rcases ih a with h | h
      · exact Or.inr (by rw [h]; exact List.mem_cons_self a t)
      · exact Or.inr (List.mem_cons_of_mem a h)

theorem graduatedPct_eq : ∀ (stages : List (Nat × Nat)) (p b : Nat),
    List.Pairwise (fun a c => a.1 < c.1) stages →
    graduatedPct b stages p =
      ((stages.filter (fun s => s.1 < b)).map Prod.snd).getLastD p := by
  intro stages
  induction stages with
  | nil => intro p b _; rfl
  | cons s rest ih =>
      intro p b hpw
      obtain ⟨d, pc⟩ := s
      obtain ⟨hhead, htail⟩ := List.pairwise_cons.mp hpw
      simp only [graduatedPct]
      by_cases hb : b ≤ d
      · rw [if_pos hb]
        have hfil : (((d, pc) :: rest).filter (fun s => s.1 < b)) = [] := by
          rw [List.filter_eq_nil_iff]
          intro s2 hs2
          rcases List.mem_cons.mp hs2 with h3 | h3
          · subst h3
            simp only [decide_eq_true_eq]
            omega
          · have := hhead s2 h3
            simp only [decide_eq_true_eq]
            omega
        rw [hfil]
        rfl
      · rw [if_neg hb]
        have hd : d < b := not_le.mp hb
        have hfil : (((d, pc) :: rest).filter (fun s => s.1 < b)) =
            (d, pc) :: rest.filter (fun s => s.1 < b) := by
          rw [List.filter_cons]
          simp [hd]
        rw [hfil, List.map_cons, List.getLastD_cons]
        exact ih pc b htail

/-- C6: a validated Graduated policy evaluates at block b to
amount * p / 100 with p the percentage of the last stage whose deadline is
strictly below b (100 when none has passed); validation rejects stage lists
that are not strictly ascending; and the specification scenario on stages
[(50,80),(100,60),(150,40)] with amount 1000 yields 1000, 800, 600 and 400 at
blocks 25, 75, 125 and 200. -/
theorem C6_graduated_refund :
    (∀ (st : State) (task_id : TaskId) (stages : List (Nat × Nat))
        (co : Bool) (oa : Option AccountId) (ca : Nat) (amount : Balance),
        validate_refund_policy ⟨.Graduated stages, co, oa, ca⟩ = .ok () →
        amount * 100 < u128Limit →
        evaluate_refund_policy st task_id ⟨.Graduated stages, co, oa, ca⟩ amount =
          .ok (amount * lastPassedPct st.block stages / 100)) ∧
    (∀ (stages : List (Nat × Nat)) (co : Bool) (oa : Option AccountId) (ca : Nat),
        ¬ List.Pairwise (fun a c => a.1 < c.1) stages →
        validate_refund_policy ⟨.Graduated stages, co, oa, ca⟩ ≠ .ok ()) ∧
    evaluate_refund_policy (stateAt 25) 0 gradPolicy 1000 = .ok 1000 ∧
    evaluate_refund_policy (stateAt 75) 0 gradPolicy 1000 = .ok 800 ∧
    evaluate_refund_policy (stateAt 125) 0 gradPolicy 1000 = .ok 600 ∧
    evaluate_refund_policy (stateAt 200) 0 gradPolicy 1000 = .ok 400 := by
  refine ⟨?_, ?_, rfl, rfl, rfl, rfl⟩
  · intro st task_id stages co oa ca amount hval hov
    simp only [validate_refund_policy] at hval
    by_cases hnil : stages = []
    · rw [if_pos hnil] at hval; cases hval
    · rw [if_neg hnil] at hval
      obtain ⟨hpw, _, hp100⟩ := validateStages_ok stages 0 hval
      have hple : lastPassedPct st.block stages ≤ 100 := by
        unfold lastPassedPct
        rcases getLastD_cases ((stages.filter (fun s => s.1 < st.block)).map Prod.snd)
            100 with h | h
        · rw [h]
        · obtain ⟨s2, hs2, hsnd⟩ := List.mem_map.mp h
          rw [← hsnd]
          exact hp100 s2 (List.mem_of_mem_filter hs2)
      show percentOf amount (graduatedPct st.block stages 100) = _
      rw [graduatedPct_eq stages 100 st.block hpw]
      have hcm : checkedMul amount (lastPassedPct st.block stages) =
          some (amount * lastPassedPct st.block stages) := by
        unfold checkedMul
        rw [if_pos (lt_of_le_of_lt (Nat.mul_le_mul_left amount hple) hov)]
      unfold lastPassedPct at hcm
      simp only [percentOf, hcm]
      rfl
  · intro stages co oa ca hnp hok
    apply hnp
    simp only [validate_refund_policy] at hok
    by_cases hnil : stages = []
    · rw [if_pos hnil] at hok; cases hok
    · rw [if_neg hnil] at hok
      exact (validateStages_ok stages 0 hok).1

/-- C6 witness: the general statement applied at block 75 to the
specification scenario. -/
theorem C6_graduated_refund_witness :
    evaluate_refund_policy (stateAt 75) 0 gradPolicy 1000 =
      .ok (1000 * lastPassedPct (stateAt 75).block [(50, 80), (100, 60), (150, 40)] / 100) :=
  C6_graduated_refund.1 (stateAt 75) 0 [(50, 80), (100, 60), (150, 40)]
    false none 1 1000 rfl (by decide)

end Esc

/-! Theorems: reputation (claims C7 and C8). -/

namespace Rep

/-- C7 counterexample: at score exactly 100 a successful report yields a gain
of 9, not 10 (the resulting score is 109, not 110). -/
theorem C7_counterexample :
    (report_outcome repConfig (repState stakeAt100) 5 [] true).map
        (fun s => (s.stakes 5).map ReputationStake.reputation) = .ok (some 109) ∧
    (109 : Nat) ≠ 100 + 10 :=
  ⟨rfl, by decide⟩

/-- C7 (amended): a successful report_outcome increments tasksCompleted
(u32 saturating) and sets the score to
min(MAX_REP, score + (10 - score/100)) with u32 saturating arithmetic; the
gain is 10 at every score strictly below 100 (but 9 at exactly 100), 1 at
900, and the new score never exceeds MAX_REP. -/
theorem C7_report_success (C : Config) (st : State) (agent : AccountId)
    (task_id : List Nat) (stake : ReputationStake)
    (h : st.stakes agent = some stake) :
    (report_outcome C st agent task_id true).map (fun s => s.stakes agent) =
      .ok (some { stake with
        tasks_completed := satAdd32 stake.tasks_completed 1
        reputation := min (satAdd32 stake.reputation (10 - stake.reputation / 100))
          C.maxReputationScore }) ∧
    (stake.reputation < 100 → 10 - stake.reputation / 100 = 10) ∧
    (stake.reputation = 100 → 10 - stake.reputation / 100 = 9) ∧
    (stake.reputation = 900 → 10 - stake.reputation / 100 = 1) ∧
    min (satAdd32 stake.reputation (10 - stake.reputation / 100))
        C.maxReputationScore ≤ C.maxReputationScore := by
  refine ⟨?_, ?_, ?_, ?_, min_le_right _ _⟩
  · simp only [report_outcome, h]
    simp [Except.map, mapInsert]
  · intro h1
    rw [Nat.div_eq_of_lt h1]
  · intro h1
    rw [h1]
  · intro h1
    rw [h1]

/-- C7 witness: the amended statement applied to a stake at score 100. -/
theorem C7_report_success_witness :
    (report_outcome repConfig (repState stakeAt100) 5 [] true).map
        (fun s => s.stakes 5) =
      .ok (some ⟨100, 109, 1, 0, 0, 0⟩) :=
  (C7_report_success repConfig (repState stakeAt100) 5 [] stakeAt100 rfl).1

/-- C8 counterexample: a subsequent bond by an agent whose existing score is
0 resets the score to 500 instead of preserving it. -/
theorem C8_counterexample :
    (repState stakeAt0).stakes 5 = some stakeAt0 ∧
    stakeAt0.reputation = 0 ∧
    (bond_reputation repConfig (repState stakeAt0) 5 100).map
        (fun s => (s.stakes 5).map ReputationStake.reputation) = .ok (some 500) ∧
    (500 : Nat) ≠ 0 :=
  ⟨rfl, rfl, rfl, by decide⟩

/-- C8 (amended): bond_reputation fails below MIN_STAKE; a first bond
reserves the value and initialises the score to 500; a subsequent bond adds
to the stake and preserves the existing score unless that score is 0, in
which case the score is reset to 500 and activeSince restamped. -/
theorem C8_bond_reputation (C : Config) (st : State) (who : AccountId)
    (value : Balance) :
    (value < C.minReputationStake →
      bond_reputation C st who value = .error .StakeTooLow) ∧
    (C.minReputationStake ≤ value → value ≤ (st.balances who).free →
      st.stakes who = none →
      (bond_reputation C st who value).map
          (fun s => (s.stakes who, (s.balances who).free, (s.balances who).reserved)) =
        .ok (some { staked := satAdd128 0 value, reputation := 500
                    tasks_completed := 0, tasks_failed := 0, slashed := 0
                    active_since := st.block },
             (st.balances who).free - value, (st.balances who).reserved + value)) ∧
    (∀ stake, st.stakes who = some stake → C.minReputationStake ≤ value →
      value ≤ (st.balances who).free →
      (bond_reputation C st who value).map (fun s => s.stakes who) =
        .ok (some { stake with
          staked := satAdd128 stake.staked value
          reputation := if stake.reputation = 0 then 500 else stake.reputation
          active_since := if stake.reputation = 0 then st.block
            else stake.active_since }) ∧
      (stake.reputation ≠ 0 →
        (bond_reputation C st who value).map
            (fun s => (s.stakes who).map ReputationStake.reputation) =
          .ok (some stake.reputation))) := by
  refine ⟨?_, ?_, ?_⟩
  · intro h
    simp only [bond_reputation]
    rw [if_neg (not_le.mpr h)]
  · intro h1 h2 h3
    simp only [bond_reputation]
    rw [if_pos h1]
    simp only [reserve]
    rw [if_pos h2]
    simp [Except.map, mapInsert, setBal, h3]
  · intro stake h0 h1 h2
    constructor
    · simp only [bond_reputation]
      rw [if_pos h1]
      simp only [reserve]
      rw [if_pos h2]
      simp [Except.map, mapInsert, h0]
    · intro hrep
      simp only [bond_reputation]
      rw [if_pos h1]
      simp only [reserve]
      rw [if_pos h2]
      simp [Except.map, mapInsert, h0, hrep]

/-- C8 witness: the amended statement applied to the concrete zero-score
stake. -/
theorem C8_bond_reputation_witness :
    (bond_reputation repConfig (repState stakeAt0) 5 100).map
        (fun s => s.stakes 5) =
      .ok (some ⟨200, 500, 2, 3, 5, 11⟩) :=
  ((C8_bond_reputation repConfig (repState stakeAt0) 5 100).2.2
    stakeAt0 rfl (by decide) (by decide)).1

end Rep

/-! Theorems: DID authorisation (claim C9). -/

namespace DidP

/-- C9 counterexample: revoke_did succeeds on an already-revoked DID when the
caller is the controller (the source never checks `active` in revoke_did). -/
theorem C9_counterexample :
    (didState inactiveDoc).docs [9] = some inactiveDoc ∧
    inactiveDoc.active = false ∧
    (revoke_did didConfig (didState inactiveDoc) 7 [9]).isOk = true :=
  ⟨rfl, rfl, rfl⟩

/-- C9 (amended): update_key requires the caller to equal the stored
controller and the record to be active, stamping updatedAt on success;
revoke_did requires only the controller (it also succeeds on an inactive
record) and stamps updatedAt. -/
theorem C9_did_authorization (C : Config) (st : State) (who : AccountId)
    (did : Did) (pk : Nat) (doc : DidDocument)
    (hlen : did.length ≤ C.maxDidLength) (hdoc : st.docs did = some doc) :
    (doc.controller = who → doc.active = true →
      (update_key C st who did pk).map (fun s => s.docs did) =
        .ok (some { doc with public_key := pk, updated_at := st.block })) ∧
    (doc.controller ≠ who →
      update_key C st who did pk = .error .NotDidController) ∧
    (doc.controller = who → doc.active = false →
      update_key C st who did pk = .error .DidInactive) ∧
    (doc.controller = who →
      (revoke_did C st who did).map (fun s => s.docs did) =
        .ok (some { doc with active := false, updated_at := st.block })) ∧
    (doc.controller ≠ who →
      revoke_did C st who did = .error .NotDidController) := by
  refine ⟨?_, ?_, ?_, ?_, ?_⟩
  · intro h1 h2
    simp only [update_key, hdoc]
    rw [if_pos hlen, if_pos h1, if_pos h2]
    simp [Except.map, mapInsert]
  · intro h1
    simp only [update_key, hdoc]
    rw [if_pos hlen, if_neg h1]
  · intro h1 h2
    simp only [update_key, hdoc]
    rw [if_pos hlen, if_pos h1]
    simp [h2]
  · intro h1
    simp only [revoke_did, hdoc]
    rw [if_pos hlen, if_pos h1]
    simp [Except.map, mapInsert]
  · intro h1
    simp only [revoke_did, hdoc]
    rw [if_pos hlen, if_neg h1]

/-- C9 witness: the amended statement applied to an active document and its
controller. -/
theorem C9_did_authorization_witness :
    (update_key didConfig (didState activeDoc) 7 [9] 42).map
        (fun s => s.docs [9]) = .ok (some ⟨7, 42, 0, 20, true⟩) :=
  (C9_did_authorization didConfig (didState activeDoc) 7 [9] 42 activeDoc
    (by decide) rfl).1 rfl rfl

end DidP

/-! Theorems: registry ownership (claim C10). -/

namespace Reg

theorem indexCapabilities_error (did : Did) :
    ∀ (caps : List Capability) (idx : Capability → List Did) (e : Err),
      indexCapabilities did idx caps = .error e → e = .TooManyCapabilities := by
  intro caps
  induction caps with
  | nil => intro idx e h; cases h
  | cons cap rest ih =>
      intro idx e h
      simp only [indexCapabilities] at h
      by_cases h1 : (idx cap).length < 1000
      · rw [if_pos h1] at h
        exact ih _ e h
      · rw [if_neg h1] at h
        injection h with h2
        exact h2.symm

theorem register_agent_no_owner_error (C : Config) (st : State) (who : AccountId)
    (did : Did) (name : List Nat) (caps : List Capability) (wasm : Nat)
    (price : Balance) (e : Err)
    (h : register_agent C st who did name caps wasm price = .error e) :
    e ≠ .NotAgentOwner := by
  simp only [register_agent] at h
  by_cases h1 : did.length ≤ C.maxDidLength
  · rw [if_pos h1] at h
    by_cases h2 : DidP.is_did_active C.maxDidLength st.didDocs did = true
    · rw [if_pos h2] at h
      by_cases h3 : (st.agentCards did).isSome = true
      · rw [if_pos h3] at h
        injection h with h4
        subst h4
        decide
      · rw [if_neg h3] at h
        by_cases h4 : name.length ≤ C.maxNameLength
        · rw [if_pos h4] at h
          by_cases h5 : caps.length ≤ C.maxCapabilities
          · rw [if_pos h5] at h
            by_cases h6 : capsLengthOk C caps = true
            · rw [if_pos h6] at h
              split at h
              · rename_i e2 hidx
                injection h with h7
                subst h7
                intro hc
                rw [hc] at hidx
                have h8 := indexCapabilities_error did caps st.capabilityIndex _ hidx
                cases h8
              · cases h
            · rw [if_neg h6] at h
              injection h with h7
              subst h7
              decide
          · rw [if_neg h5] at h
            injection h with h7
            subst h7
            decide
        · rw [if_neg h4] at h
          injection h with h7
          subst h7
          decide
    · rw [if_neg h2] at h
      injection h with h7
      subst h7
      decide
  · rw [if_neg h1] at h
    injection h with h7
    subst h7
    decide

theorem update_agent_no_owner_error (C : Config) (st : State) (who : AccountId)
    (did : Did) (caps : Option (List Capability)) (price : Option Balance)
    (e : Err) (h : update_agent C st who did caps price = .error e) :
    e ≠ .NotAgentOwner := by
  simp only [update_agent] at h
  repeat' split at h
  all_goals first
    | (cases h; done)
    | (injection h with h2; subst h2; decide)

theorem deregister_agent_no_owner_error (C : Config) (st : State)
    (who : AccountId) (did : Did) (e : Err)
    (h : deregister_agent C st who did = .error e) : e ≠ .NotAgentOwner := by
  simp only [deregister_agent] at h
  repeat' split at h
  all_goals first
    | (cases h; done)
    | (injection h with h2; subst h2; decide)

/-- C10: update_agent and deregister_agent never compare the caller to a
controller or owner: their outcome is identical for any two signed callers;
any existing agent can be deregistered by anyone; and no registry dispatch
ever returns the NotAgentOwner error. -/
theorem C10_registry_no_owner_check (C : Config) (st : State)
    (c1 c2 : AccountId) (did : Did) (caps : Option (List Capability))
    (price : Option Balance) (name : List Nat) (caps2 : List Capability)
    (wasm : Nat) (price2 : Balance) :
    update_agent C st c1 did caps price = update_agent C st c2 did caps price ∧
    deregister_agent C st c1 did = deregister_agent C st c2 did ∧
    (∀ card, did.length ≤ C.maxDidLength → st.agentCards did = some card →
      (deregister_agent C st c1 did).map (fun s => s.agentCards did) =
        .ok (some { card with active := false, updated_at := st.block })) ∧
    (∀ e, update_agent C st c1 did caps price = .error e →
      e ≠ .NotAgentOwner) ∧
    (∀ e, deregister_agent C st c1 did = .error e → e ≠ .NotAgentOwner) ∧
    (∀ e, register_agent C st c1 did name caps2 wasm price2 = .error e →
      e ≠ .NotAgentOwner) := by
  refine ⟨rfl, rfl, ?_, ?_, ?_, ?_⟩
  · intro card h1 h2
    simp only [deregister_agent, h2]
    rw [if_pos h1]
    simp [Except.map, mapInsert]
  · intro e h
    exact update_agent_no_owner_error C st c1 did caps price e h
  · intro e h
    exact deregister_agent_no_owner_error C st c1 did e h
  · intro e h
    exact register_agent_no_owner_error C st c1 did name caps2 wasm price2 e h

/-- C10 witness: the statement applied at a concrete state where another
account deregisters the agent it does not control. -/
theorem C10_registry_no_owner_check_witness :
    (deregister_agent regConfig regState 3 [9]).map
        (fun s => s.agentCards [9]) =
      .ok (some ⟨[9], [1], [[2]], 0, 10, 1, 30, false⟩) :=
  (C10_registry_no_owner_check regConfig regState 3 4 [9] none none [] [] 0
    0).2.2.1 regCard (by decide) rfl

end Reg

/-! Theorems: batch atomicity (claim C3). -/

namespace Esc

theorem runDispatch_error_id (body : State → Except Err State) (st : State)
    (e : Err) (h : (runDispatch body st).2 = some e) :
    (runDispatch body st).1 = st := by
  unfold runDispatch at h ⊢
  cases hb : body st with
  | ok s1 => rw [hb] at h; cases h
  | error e2 => rfl

/-- C3: a batch dispatch that returns an error leaves every escrow entry,
refund-policy entry, user and participant index entry, the balances and the
event record exactly as before the dispatch (the host aborts all writes of a
failed dispatchable, as the specification guarantees and FRAME implements). -/
theorem C3_batch_atomicity (C : Config) (st : State) (caller : AccountId)
    (requests : List BatchCreateEscrowRequest) (task_ids : List TaskId)
    (e : Err) :
    ((runDispatch (fun s => batch_create_escrow C s caller requests) st).2 = some e →
      (runDispatch (fun s => batch_create_escrow C s caller requests) st).1.escrows = st.escrows ∧
      (runDispatch (fun s => batch_create_escrow C s caller requests) st).1.policies = st.policies ∧
      (runDispatch (fun s => batch_create_escrow C s caller requests) st).1.userEscrows = st.userEscrows ∧
      (runDispatch (fun s => batch_create_escrow C s caller requests) st).1.participantEscrows = st.participantEscrows ∧
      (runDispatch (fun s => batch_create_escrow C s caller requests) st).1.balances = st.balances ∧
      (runDispatch (fun s => batch_create_escrow C s caller requests) st).1.events = st.events) ∧
    ((runDispatch (fun s => batch_release_payment C s caller task_ids) st).2 = some e →
      (runDispatch (fun s => batch_release_payment C s caller task_ids) st).1.escrows = st.escrows ∧
      (runDispatch (fun s => batch_release_payment C s caller task_ids) st).1.policies = st.policies ∧
      (runDispatch (fun s => batch_release_payment C s caller task_ids) st).1.userEscrows = st.userEscrows ∧
      (runDispatch (fun s => batch_release_payment C s caller task_ids) st).1.participantEscrows = st.participantEscrows ∧
      (runDispatch (fun s => batch_release_payment C s caller task_ids) st).1.balances = st.balances ∧
      (runDispatch (fun s => batch_release_payment C s caller task_ids) st).1.events = st.events) ∧
    ((runDispatch (fun s => batch_refund_escrow C s caller task_ids) st).2 = some e →
      (runDispatch (fun s => batch_refund_escrow C s caller task_ids) st).1.escrows = st.escrows ∧
      (runDispatch (fun s => batch_refund_escrow C s caller task_ids) st).1.policies = st.policies ∧
      (runDispatch (fun s => batch_refund_escrow C s caller task_ids) st).1.userEscrows = st.userEscrows ∧
      (runDispatch (fun s => batch_refund_escrow C s caller task_ids) st).1.participantEscrows = st.participantEscrows ∧
      (runDispatch (fun s => batch_refund_escrow C s caller task_ids) st).1.balances = st.balances ∧
      (runDispatch (fun s => batch_refund_escrow C s caller task_ids) st).1.events = st.events) ∧
    ((runDispatch (fun s => batch_dispute_escrow C s caller task_ids) st).2 = some e →
      (runDispatch (fun s => batch_dispute_escrow C s caller task_ids) st).1.escrows = st.escrows ∧
      (runDispatch (fun s => batch_dispute_escrow C s caller task_ids) st).1.policies = st.policies ∧
      (runDispatch (fun s => batch_dispute_escrow C s caller task_ids) st).1.userEscrows = st.userEscrows ∧
      (runDispatch (fun s => batch_dispute_escrow C s caller task_ids) st).1.participantEscrows = st.participantEscrows ∧
      (runDispatch (fun s => batch_dispute_escrow C s caller task_ids) st).1.balances = st.balances ∧
      (runDispatch (fun s => batch_dispute_escrow C s caller task_ids) st).1.events = st.events) := by
  refine ⟨?_, ?_, ?_, ?_⟩ <;>
    · intro h
      rw [runDispatch_error_id _ st e h]
      exact ⟨rfl, rfl, rfl, rfl, rfl, rfl⟩

theorem create_escrow_ok (C : Config) (st : State) (u : AccountId)
    (task : TaskId) (A : Balance) (hash : Nat) (tb : Option Nat)
    (h0 : st.escrows task = none) (hA0 : 0 < A) (hAmax : A ≤ C.maxEscrowAmount)
    (hAfree : A ≤ (st.balances u).free)
    (h1 : (st.userEscrows u).length < 1000) :
    create_escrow C st u task A hash tb =
      .ok { st with
        balances := setBal st.balances u
          ⟨(st.balances u).free - A, (st.balances u).reserved + A⟩
        escrows := mapInsert st.escrows task
          { task_id := task, user := u, agent_did := none, agent_account := none
            amount := A, fee_percent := 5, created_at := st.block
            expires_at := st.block + tb.getD C.defaultTimeout
            state := .Pending, task_hash := hash, participants := []
            is_multi_party := false, milestones := []
            is_milestone_based := false, next_milestone_id := 0 }
        userEscrows := listMapSet st.userEscrows u (st.userEscrows u ++ [task])
        events := st.events ++ [.EscrowCreated task u A] } := by
  have hres : reserve st.balances u A =
      some (setBal st.balances u
        ⟨(st.balances u).free - A, (st.balances u).reserved + A⟩) := by
    unfold reserve
    rw [if_pos hAfree]
  simp only [create_escrow, h0, Option.isSome_none, Bool.false_eq_true,
    if_false, hres]
  rw [if_pos hA0, if_pos hAmax, if_pos h1]
  rfl

theorem set_refund_policy_ok (st : State) (u : AccountId) (task : TaskId)
    (policy : RefundPolicy) (esc : EscrowDetails)
    (hesc : st.escrows task = some esc) (huser : esc.user = u)
    (hpend : esc.state = .Pending)
    (hval : validate_refund_policy policy = .ok ()) :
    set_refund_policy st u task policy =
      .ok { st with
        policies := mapInsert st.policies task policy
        events := st.events ++
          [.RefundPolicySet task policy.policy_type policy.can_override] } := by
  simp [set_refund_policy, hesc, huser, hpend, hval, emit]

theorem refund_escrow_pending_ok (st : State) (caller : AccountId)
    (task : TaskId) (esc : EscrowDetails)
    (hesc : st.escrows task = some esc) (hpend : esc.state = .Pending)
    (huser : esc.user = caller) :
    refund_escrow st caller task =
      .ok { st with
        balances := unreserve st.balances esc.user esc.amount
        escrows := mapInsert st.escrows task { esc with state := .Refunded }
        events := st.events ++ [.EscrowRefunded task esc.user esc.amount] } := by
  simp only [refund_escrow, hesc]
  rw [if_pos (Or.inl hpend)]
  rw [if_neg (by simp [huser])]
  rw [if_neg (by simp [hpend])]
  rfl

theorem mapInsert_self {A B : Type} [DecidableEq A] (m : A → Option B) (k : A)
    (v : B) : mapInsert m k v k = some v := by
  simp [mapInsert]

theorem mapInsert_ne {A B : Type} [DecidableEq A] (m : A → Option B) (k : A)
    (v : B) (x : A) (h : x ≠ k) : mapInsert m k v x = m x := by
  simp [mapInsert, h]

theorem unreserve_at (b : Balances) (who : AccountId) (v : Balance) :
    (unreserve b who v) who =
      ⟨(b who).free + min v (b who).reserved,
       (b who).reserved - min v (b who).reserved⟩ := by
  simp [unreserve, setBal]

theorem unreserve_off (b : Balances) (who : AccountId) (v : Balance)
    (a : AccountId) (h : a ≠ who) : (unreserve b who v) a = b a := by
  simp [unreserve, setBal, h]

theorem transfer_ok_of_le (b : Balances) (src dst : AccountId) (v : Balance)
    (h : v ≤ (b src).free) (hne : src ≠ dst) :
    ∃ b2, transfer b src dst v = some b2 ∧
      (b2 src).free = (b src).free - v ∧
      (b2 src).reserved = (b src).reserved ∧
      (b2 dst).free = (b dst).free + v ∧
      (b2 dst).reserved = (b dst).reserved ∧
      ∀ a, a ≠ src → a ≠ dst → b2 a = b a := by
  have heq : transfer b src dst v =
      some (setBal (setBal b src ⟨(b src).free - v, (b src).reserved⟩) dst
        ⟨((setBal b src ⟨(b src).free - v, (b src).reserved⟩) dst).free + v,
         ((setBal b src ⟨(b src).free - v, (b src).reserved⟩) dst).reserved⟩) := by
    unfold transfer
    rw [if_pos h, if_neg hne]
  refine ⟨_, heq, ?_, ?_, ?_, ?_, ?_⟩
  · simp [setBal, hne, Ne.symm hne]
  · simp [setBal, hne, Ne.symm hne]
  · simp [setBal, hne, Ne.symm hne]
  · simp [setBal, hne, Ne.symm hne]
  · intro a ha1 ha2
    simp [setBal, ha1, ha2]

/-- C1 counterexample, two divergences.  First: create an escrow of 500 from
a balance of 1000, store a CancellationFee policy with fee 50, then call the
single-escrow refund_escrow: the creator is returned to the full original
balance and the protocol account receives nothing, contradicting the claimed
net outflow of exactly the fee.  Second: with the storable boundary fee
F = amount = 500, even batch_refund_escrow returns the creator to the full
original balance and the protocol account receives nothing (the evaluated
refund is 0 and the positive-refund guard skips the forfeiture transfer),
contradicting the claimed outflow of exactly F there as well. -/
theorem C1_counterexample :
    ((create_escrow escConfig baseState 1 42 500 0 none).bind (fun s1 =>
      (set_refund_policy s1 1 42 (cancelPolicy 50)).bind (fun s2 =>
        refund_escrow s2 1 42))).map (balanceView escConfig 1) =
      .ok (1000, 0, 0) ∧
    ((1000, 0, 0) : Balance × Balance × Balance) ≠ (1000 - 50, 0, 0 + 50) ∧
    ((create_escrow escConfig baseState 1 42 500 0 none).bind (fun s1 =>
      (set_refund_policy s1 1 42 (cancelPolicy 500)).bind (fun s2 =>
        batch_refund_escrow escConfig s2 1 [42]))).map (balanceView escConfig 1) =
      .ok (1000, 0, 0) ∧
    ((1000, 0, 0) : Balance × Balance × Balance) ≠ (1000 - 500, 0, 0 + 500) :=
  ⟨rfl, by decide, rfl, by decide⟩

theorem batch_refund_one_cancel (C : Config) (st2 : State) (u : AccountId)
    (task : TaskId) (esc : EscrowDetails) (F : Balance) (co : Bool)
    (oa : Option AccountId) (ca : Nat)
    (hesc : st2.escrows task = some esc)
    (hpend : esc.state = .Pending) (huser : esc.user = u)
    (hpol : st2.policies task = some ⟨.CancellationFee F, co, oa, ca⟩)
    (hF0 : 0 < F) (hFA : F < esc.amount)
    (hAres : esc.amount ≤ (st2.balances u).reserved)
    (hup : u ≠ C.protocolFeeAccount)
    (hbatch : 1 ≤ C.maxBatchSize) :
    (batch_refund_escrow C st2 u [task]).map (balanceView C u) =
      .ok ((st2.balances u).free + esc.amount - F,
           (st2.balances u).reserved - esc.amount,
           (st2.balances C.protocolFeeAccount).free + F) := by
  subst huser
  have hB2u : (unreserve st2.balances esc.user esc.amount) esc.user =
      ⟨(st2.balances esc.user).free + esc.amount,
       (st2.balances esc.user).reserved - esc.amount⟩ := by
    rw [unreserve_at, min_eq_left hAres]
  have hB2p : (unreserve st2.balances esc.user esc.amount) C.protocolFeeAccount =
      st2.balances C.protocolFeeAccount :=
    unreserve_off _ _ _ _ (Ne.symm hup)
  have hvle : esc.amount - (esc.amount - F) ≤
      ((unreserve st2.balances esc.user esc.amount) esc.user).free := by
    rw [hB2u]
    show esc.amount - (esc.amount - F) ≤ (st2.balances esc.user).free + esc.amount
    exact le_trans (Nat.sub_le _ _) (Nat.le_add_left _ _)
  obtain ⟨b3, htr, hsf, hsr, hdf, hdr, hoff⟩ :=
    transfer_ok_of_le (unreserve st2.balances esc.user esc.amount) esc.user
      C.protocolFeeAccount (esc.amount - (esc.amount - F)) hvle hup
  have heval : evaluate_refund_policy st2 task
      ⟨.CancellationFee F, co, oa, ca⟩ esc.amount = .ok (esc.amount - F) := by
    simp only [evaluate_refund_policy, checkedSub]
    rw [if_pos (le_of_lt hFA)]
    rfl
  have hrun : brfExecute C esc.user st2 0 0 [task] =
      .ok (emit { st2 with
                  balances := b3,
                  escrows := mapInsert st2.escrows task { esc with state := .Refunded } }
             (.EscrowRefunded task esc.user (esc.amount - F)),
           satAdd128 0 (esc.amount - F), 0 + 1) := by
    simp only [brfExecute, hesc]
    rw [if_pos (Or.inl hpend)]
    rw [if_neg (by simp)]
    rw [if_neg (by simp [hpend])]
    simp only [hpol, heval]
    rw [if_pos (show 0 < esc.amount - F ∧ esc.amount - F < esc.amount from
      ⟨Nat.sub_pos_of_lt hFA, Nat.sub_lt (lt_trans hF0 hFA) hF0⟩)]
    simp only [htr]
  have hsz : ([task] : List TaskId).length ≤ C.maxBatchSize := by
    simpa using hbatch
  simp only [batch_refund_escrow]
  rw [if_pos hsz]
  rw [if_neg (by simp : ¬([task] : List TaskId) = [])]
  simp only [hrun]
  simp only [Except.map, balanceView, emit]
  simp only [Except.ok.injEq, Prod.mk.injEq]
  refine ⟨?_, ?_, ?_⟩
  · show (b3 esc.user).free = _
    simp only [hsf, hB2u]
    rw [Nat.sub_sub_self (le_of_lt hFA)]
  · show (b3 esc.user).reserved = _
    simp only [hsr, hB2u]
  · show (b3 C.protocolFeeAccount).free = _
    simp only [hdf, hB2p]
    rw [Nat.sub_sub_self (le_of_lt hFA)]

theorem batch_refund_one_cancel_eq (C : Config) (st2 : State) (u : AccountId)
    (task : TaskId) (esc : EscrowDetails) (F : Balance) (co : Bool)
    (oa : Option AccountId) (ca : Nat)
    (hesc : st2.escrows task = some esc)
    (hpend : esc.state = .Pending) (huser : esc.user = u)
    (hpol : st2.policies task = some ⟨.CancellationFee F, co, oa, ca⟩)
    (hAF : esc.amount ≤ F)
    (hAres : esc.amount ≤ (st2.balances u).reserved)
    (hup : u ≠ C.protocolFeeAccount)
    (hbatch : 1 ≤ C.maxBatchSize) :
    (batch_refund_escrow C st2 u [task]).map (balanceView C u) =
      .ok ((st2.balances u).free + esc.amount,
           (st2.balances u).reserved - esc.amount,
           (st2.balances C.protocolFeeAccount).free) := by
  subst huser
  have hB2u : (unreserve st2.balances esc.user esc.amount) esc.user =
      ⟨(st2.balances esc.user).free + esc.amount,
       (st2.balances esc.user).reserved - esc.amount⟩ := by
    rw [unreserve_at, min_eq_left hAres]
  have hB2p : (unreserve st2.balances esc.user esc.amount) C.protocolFeeAccount =
      st2.balances C.protocolFeeAccount :=
    unreserve_off _ _ _ _ (Ne.symm hup)
  have heval : evaluate_refund_policy st2 task
      ⟨.CancellationFee F, co, oa, ca⟩ esc.amount = .ok 0 := by
    simp only [evaluate_refund_policy, checkedSub]
    by_cases hFA2 : F ≤ esc.amount
    · rw [if_pos hFA2]
      simp [Nat.sub_eq_zero_of_le hAF]
    · rw [if_neg hFA2]
      rfl
  have hrun : brfExecute C esc.user st2 0 0 [task] =
      .ok (emit { st2 with
                  balances := unreserve st2.balances esc.user esc.amount,
                  escrows := mapInsert st2.escrows task { esc with state := .Refunded } }
             (.EscrowRefunded task esc.user 0),
           satAdd128 0 0, 0 + 1) := by
    simp only [brfExecute, hesc]
    rw [if_pos (Or.inl hpend)]
    rw [if_neg (by simp)]
    rw [if_neg (by simp [hpend])]
    simp only [hpol, heval]
    rw [if_neg (by simp : ¬((0 : Balance) < 0 ∧ 0 < esc.amount))]
  have hsz : ([task] : List TaskId).length ≤ C.maxBatchSize := by
    simpa using hbatch
  simp only [batch_refund_escrow]
  rw [if_pos hsz]
  rw [if_neg (by simp : ¬([task] : List TaskId) = [])]
  simp only [hrun]
  simp only [Except.map, balanceView, emit]
  simp only [Except.ok.injEq, Prod.mk.injEq]
  refine ⟨?_, ?_, ?_⟩
  · show ((unreserve st2.balances esc.user esc.amount) esc.user).free = _
    rw [hB2u]
  · show ((unreserve st2.balances esc.user esc.amount) esc.user).reserved = _
    rw [hB2u]
  · show ((unreserve st2.balances esc.user esc.amount) C.protocolFeeAccount).free = _
    rw [hB2p]

/-- C1 (amended): the single-escrow refund_escrow ignores the stored
CancellationFee policy and returns the creator to the original balances with
no protocol inflow; the claimed accounting (creator down exactly F, protocol
up exactly F) holds for batch_refund_escrow exactly when 0 < F < amount — at
the storable boundary F = amount the evaluated refund is 0 and the
positive-refund guard skips the forfeiture transfer, so batch_refund_escrow
also returns the creator to the original balances with no protocol inflow;
and with no policy the single refund also restores the original balance. -/
theorem C1_cancellation_fee_refund (C : Config) (st : State) (u : AccountId)
    (task : TaskId) (A F : Balance) (hash : Nat) (tb : Option Nat)
    (co : Bool) (oa : Option AccountId) (ca : Nat)
    (h0 : st.escrows task = none)
    (h1 : (st.userEscrows u).length < 1000)
    (hA0 : 0 < A) (hAmax : A ≤ C.maxEscrowAmount)
    (hAfree : A ≤ (st.balances u).free)
    (hF0 : 0 < F) (hFA : F < A)
    (hproto : C.protocolFeeAccount ≠ u)
    (hbatch : 1 ≤ C.maxBatchSize) :
    (((create_escrow C st u task A hash tb).bind (fun s1 =>
        (set_refund_policy s1 u task ⟨.CancellationFee F, co, oa, ca⟩).bind
          (fun s2 => refund_escrow s2 u task))).map (balanceView C u)) =
      .ok ((st.balances u).free, (st.balances u).reserved,
           (st.balances C.protocolFeeAccount).free) ∧
    (((create_escrow C st u task A hash tb).bind (fun s1 =>
        (set_refund_policy s1 u task ⟨.CancellationFee F, co, oa, ca⟩).bind
          (fun s2 => batch_refund_escrow C s2 u [task]))).map (balanceView C u)) =
      .ok ((st.balances u).free - F, (st.balances u).reserved,
           (st.balances C.protocolFeeAccount).free + F) ∧
    (((create_escrow C st u task A hash tb).bind (fun s1 =>
        refund_escrow s1 u task)).map (balanceView C u)) =
      .ok ((st.balances u).free, (st.balances u).reserved,
           (st.balances C.protocolFeeAccount).free) ∧
    (((create_escrow C st u task A hash tb).bind (fun s1 =>
        (set_refund_policy s1 u task ⟨.CancellationFee A, co, oa, ca⟩).bind
          (fun s2 => batch_refund_escrow C s2 u [task]))).map (balanceView C u)) =
      .ok ((st.balances u).free, (st.balances u).reserved,
           (st.balances C.protocolFeeAccount).free) := by
  have hc : create_escrow C st u task A hash tb =
      .ok (afterCreateState C st u task A hash tb) :=
    create_escrow_ok C st u task A hash tb h0 hA0 hAmax hAfree h1
  have hmin : min A ((st.balances u).reserved + A) = A :=
    min_eq_left (Nat.le_add_left A _)
  have hfa : (st.balances u).free - A + A = (st.balances u).free :=
    Nat.sub_add_cancel hAfree
  have hup : u ≠ C.protocolFeeAccount := Ne.symm hproto
  have hescC : (afterCreateState C st u task A hash tb).escrows task =
      some (pendingEscrowOf C st u task A hash tb) := mapInsert_self _ _ _
  have hval : validate_refund_policy
      (⟨.CancellationFee F, co, oa, ca⟩ : RefundPolicy) = .ok () := by
    simp only [validate_refund_policy]
    rw [if_pos hF0]
  have hsp : set_refund_policy (afterCreateState C st u task A hash tb) u task
      ⟨.CancellationFee F, co, oa, ca⟩ =
      .ok (afterPolicyState C st u task A hash tb ⟨.CancellationFee F, co, oa, ca⟩) :=
    set_refund_policy_ok _ u task _ _ hescC rfl rfl hval
  have hescP : (afterPolicyState C st u task A hash tb
      ⟨.CancellationFee F, co, oa, ca⟩).escrows task =
      some (pendingEscrowOf C st u task A hash tb) := mapInsert_self _ _ _
  refine ⟨?_, ?_, ?_, ?_⟩
  · rw [hc]
    simp only [Except.bind]
    rw [hsp]
    simp only [Except.bind]
    rw [refund_escrow_pending_ok _ u task _ hescP rfl rfl]
    simp only [Except.map]
    simp [balanceView, unreserve, setBal, mapInsert, afterPolicyState,
      afterCreateState, pendingEscrowOf, hproto, hup, hmin, hfa]
  · rw [hc]
    simp only [Except.bind]
    rw [hsp]
    simp only [Except.bind]
    have hpolP : (afterPolicyState C st u task A hash tb
        ⟨.CancellationFee F, co, oa, ca⟩).policies task =
        some ⟨.CancellationFee F, co, oa, ca⟩ := mapInsert_self _ _ _
    have hAres : (pendingEscrowOf C st u task A hash tb).amount ≤
        ((afterPolicyState C st u task A hash tb
          ⟨.CancellationFee F, co, oa, ca⟩).balances u).reserved := by
      simp [afterPolicyState, afterCreateState, pendingEscrowOf, setBal]
    rw [batch_refund_one_cancel C _ u task _ F co oa ca hescP rfl rfl hpolP
      hF0 hFA hAres hup hbatch]
    simp only [afterPolicyState, afterCreateState, pendingEscrowOf, setBal]
    simp only [Except.ok.injEq, Prod.mk.injEq]
    refine ⟨?_, ?_, ?_⟩ <;> simp [hproto, hup]
    rw [hfa]
  · rw [hc]
    simp only [Except.bind]
    rw [refund_escrow_pending_ok _ u task _ hescC rfl rfl]
    simp only [Except.map]
    simp [balanceView, unreserve, setBal, mapInsert, afterCreateState,
      pendingEscrowOf, hproto, hup, hmin, hfa]
  · rw [hc]
    simp only [Except.bind]
    have hvalA : validate_refund_policy
        (⟨.CancellationFee A, co, oa, ca⟩ : RefundPolicy) = .ok () := by
      simp only [validate_refund_policy]
      rw [if_pos hA0]
    have hspA : set_refund_policy (afterCreateState C st u task A hash tb) u task
        ⟨.CancellationFee A, co, oa, ca⟩ =
        .ok (afterPolicyState C st u task A hash tb
          ⟨.CancellationFee A, co, oa, ca⟩) :=
      set_refund_policy_ok _ u task _ _ hescC rfl rfl hvalA
    rw [hspA]
    simp only [Except.bind]
    have hescPA : (afterPolicyState C st u task A hash tb
        ⟨.CancellationFee A, co, oa, ca⟩).escrows task =
        some (pendingEscrowOf C st u task A hash tb) := mapInsert_self _ _ _
    have hpolPA : (afterPolicyState C st u task A hash tb
        ⟨.CancellationFee A, co, oa, ca⟩).policies task =
        some ⟨.CancellationFee A, co, oa, ca⟩ := mapInsert_self _ _ _
    have hAresA : (pendingEscrowOf C st u task A hash tb).amount ≤
        ((afterPolicyState C st u task A hash tb
          ⟨.CancellationFee A, co, oa, ca⟩).balances u).reserved := by
      simp [afterPolicyState, afterCreateState, pendingEscrowOf, setBal]
    have hAFA : (pendingEscrowOf C st u task A hash tb).amount ≤ A := le_refl A
    rw [batch_refund_one_cancel_eq C _ u task _ A co oa ca hescPA rfl rfl hpolPA
      hAFA hAresA hup hbatch]
    simp only [afterPolicyState, afterCreateState, pendingEscrowOf, setBal]
    simp only [Except.ok.injEq, Prod.mk.injEq]
    refine ⟨?_, ?_, ?_⟩ <;> simp [hproto, hup]
    rw [hfa]

/-- C1 witness: the amended statement applied at a concrete scenario
(create an escrow of 500 from account 1).  With a stored CancellationFee
policy of fee 50 the batch refund leaves the creator at 950 free and the
protocol account at 50; with the boundary fee 500 = amount the batch refund
returns the creator to 1000 free and the protocol account stays at 0. -/
theorem C1_cancellation_fee_refund_witness :
    (((create_escrow escConfig baseState 1 42 500 0 none).bind (fun s1 =>
        (set_refund_policy s1 1 42 ⟨.CancellationFee 50, false, none, 1⟩).bind
          (fun s2 => batch_refund_escrow escConfig s2 1 [42]))).map
        (balanceView escConfig 1)) = .ok (950, 0, 50) ∧
    (((create_escrow escConfig baseState 1 42 500 0 none).bind (fun s1 =>
        (set_refund_policy s1 1 42 ⟨.CancellationFee 500, false, none, 1⟩).bind
          (fun s2 => batch_refund_escrow escConfig s2 1 [42]))).map
        (balanceView escConfig 1)) = .ok (1000, 0, 0) :=
  ⟨((C1_cancellation_fee_refund escConfig baseState 1 42 500 50 0 none false
      none 1 rfl (by decide) (by decide) (by decide) (by decide) (by decide)
      (by decide) (by decide) (by decide)).2.1).trans (by rfl),
   ((C1_cancellation_fee_refund escConfig baseState 1 42 500 50 0 none false
      none 1 rfl (by decide) (by decide) (by decide) (by decide) (by decide)
      (by decide) (by decide) (by decide)).2.2.2).trans (by rfl)⟩

/-- C3 witness: the statement applied to a concrete failing batch (an empty
batch returns InvalidBatchSize). -/
theorem C3_batch_atomicity_witness :
    (runDispatch (fun s => batch_create_escrow escConfig s 1 []) baseState).1.escrows = baseState.escrows ∧
    (runDispatch (fun s => batch_create_escrow escConfig s 1 []) baseState).1.policies = baseState.policies ∧
    (runDispatch (fun s => batch_create_escrow escConfig s 1 []) baseState).1.userEscrows = baseState.userEscrows ∧
    (runDispatch (fun s => batch_create_escrow escConfig s 1 []) baseState).1.participantEscrows = baseState.participantEscrows ∧
    (runDispatch (fun s => batch_create_escrow escConfig s 1 []) baseState).1.balances = baseState.balances ∧
    (runDispatch (fun s => batch_create_escrow escConfig s 1 []) baseState).1.events = baseState.events :=
  (C3_batch_atomicity escConfig baseState 1 [] [] .InvalidBatchSize).1 rfl

theorem isTerminal_ne (s : EscrowState) (h : isTerminal s) :
    s ≠ EscrowState.Pending ∧ s ≠ EscrowState.Accepted := by
  rcases h with h | h | h <;> subst h <;> exact ⟨by decide, by decide⟩

theorem accept_task_term_pres (C : Config) (st st1 : State) (a : AccountId)
    (t1 : TaskId) (d : Did) (t : TaskId) (esc : EscrowDetails)
    (hesc : st.escrows t = some esc) (hterm : isTerminal esc.state)
    (h : accept_task C st a t1 d = .ok st1) :
    st1.escrows t = st.escrows t := by
  have hne := isTerminal_ne esc.state hterm
  by_cases ht : t1 = t
  · subst ht
    simp only [accept_task, hesc] at h
    rw [if_neg hne.1] at h
    exact Except.noConfusion h
  · simp only [accept_task] at h
    repeat' split at h
    all_goals try exact Except.noConfusion h
    all_goals
      obtain rfl := Except.ok.inj h
      simp [emit, mapInsert, listMapSet, Ne.symm ht]

theorem release_payment_term_pres (C : Config) (st st1 : State) (c : AccountId)
    (t1 t : TaskId) (esc : EscrowDetails)
    (hesc : st.escrows t = some esc) (hterm : isTerminal esc.state)
    (h : release_payment C st c t1 = .ok st1) :
    st1.escrows t = st.escrows t := by
  have hne := isTerminal_ne esc.state hterm
  by_cases ht : t1 = t
  · subst ht
    simp only [release_payment, hesc] at h
    rw [if_neg hne.2] at h
    split at h <;> exact Except.noConfusion h
  · simp only [release_payment] at h
    repeat' split at h
    all_goals try exact Except.noConfusion h
    all_goals
      obtain rfl := Except.ok.inj h
      simp [emit, mapInsert, listMapSet, Ne.symm ht]

theorem refund_escrow_term_pres (st st1 : State) (c : AccountId)
    (t1 t : TaskId) (esc : EscrowDetails)
    (hesc : st.escrows t = some esc) (hterm : isTerminal esc.state)
    (h : refund_escrow st c t1 = .ok st1) :
    st1.escrows t = st.escrows t := by
  have hne := isTerminal_ne esc.state hterm
  by_cases ht : t1 = t
  · subst ht
    simp only [refund_escrow, hesc] at h
    rw [if_neg (not_or.mpr hne)] at h
    exact Except.noConfusion h
  · simp only [refund_escrow] at h
    repeat' split at h
    all_goals try exact Except.noConfusion h
    all_goals
      obtain rfl := Except.ok.inj h
      simp [emit, mapInsert, listMapSet, Ne.symm ht]

theorem dispute_escrow_term_pres (st st1 : State) (c : AccountId)
    (t1 t : TaskId) (esc : EscrowDetails)
    (hesc : st.escrows t = some esc) (hterm : isTerminal esc.state)
    (h : dispute_escrow st c t1 = .ok st1) :
    st1.escrows t = st.escrows t := by
  have hne := isTerminal_ne esc.state hterm
  by_cases ht : t1 = t
  · subst ht
    simp only [dispute_escrow, hesc] at h
    rw [if_neg hne.2] at h
    exact Except.noConfusion h
  · simp only [dispute_escrow] at h
    repeat' split at h
    all_goals try exact Except.noConfusion h
    all_goals
      obtain rfl := Except.ok.inj h
      simp [emit, mapInsert, listMapSet, Ne.symm ht]

theorem add_participant_term_pres (C : Config) (st st1 : State) (c : AccountId)
    (t1 : TaskId) (p : AccountId) (r : ParticipantRole) (amt : Balance)
    (t : TaskId) (esc : EscrowDetails)
    (hesc : st.escrows t = some esc) (hterm : isTerminal esc.state)
    (h : add_participant C st c t1 p r amt = .ok st1) :
    st1.escrows t = st.escrows t := by
  have hne := isTerminal_ne esc.state hterm
  by_cases ht : t1 = t
  · subst ht
    simp only [add_participant, hesc] at h
    rw [if_neg hne.1] at h
    split at h <;> exact Except.noConfusion h
  · simp only [add_participant] at h
    repeat' split at h
    all_goals try exact Except.noConfusion h
    all_goals
      obtain rfl := Except.ok.inj h
      simp [emit, mapInsert, listMapSet, Ne.symm ht]

theorem remove_participant_term_pres (st st1 : State) (c : AccountId)
    (t1 : TaskId) (p : AccountId) (t : TaskId) (esc : EscrowDetails)
    (hesc : st.escrows t = some esc) (hterm : isTerminal esc.state)
    (h : remove_participant st c t1 p = .ok st1) :
    st1.escrows t = st.escrows t := by
  have hne := isTerminal_ne esc.state hterm
  by_cases ht : t1 = t
  · subst ht
    simp only [remove_participant, hesc] at h
    rw [if_neg hne.1] at h
    exact Except.noConfusion h
  · simp only [remove_participant] at h
    repeat' split at h
    all_goals try exact Except.noConfusion h
    all_goals
      obtain rfl := Except.ok.inj h
      simp [emit, mapInsert, listMapSet, Ne.symm ht]

theorem add_milestone_term_pres (C : Config) (st st1 : State) (c : AccountId)
    (t1 : TaskId) (de : List Nat) (amt : Balance) (ra : Nat)
    (t : TaskId) (esc : EscrowDetails)
    (hesc : st.escrows t = some esc) (hterm : isTerminal esc.state)
    (h : add_milestone C st c t1 de amt ra = .ok st1) :
    st1.escrows t = st.escrows t := by
  have hne := isTerminal_ne esc.state hterm
  by_cases ht : t1 = t
  · subst ht
    simp only [add_milestone, hesc] at h
    rw [if_neg hne.1] at h
    split at h <;> exact Except.noConfusion h
  · simp only [add_milestone] at h
    repeat' split at h
    all_goals try exact Except.noConfusion h
    all_goals
      obtain rfl := Except.ok.inj h
      simp [emit, mapInsert, listMapSet, Ne.symm ht]

theorem complete_milestone_term_pres (st st1 : State) (c : AccountId)
    (t1 : TaskId) (m : Nat) (t : TaskId) (esc : EscrowDetails)
    (hesc : st.escrows t = some esc) (hterm : isTerminal esc.state)
    (h : complete_milestone st c t1 m = .ok st1) :
    st1.escrows t = st.escrows t := by
  have hne := isTerminal_ne esc.state hterm
  by_cases ht : t1 = t
  · subst ht
    simp only [complete_milestone, hesc] at h
    rw [if_neg hne.2] at h
    exact Except.noConfusion h
  · simp only [complete_milestone] at h
    repeat' split at h
    all_goals try exact Except.noConfusion h
    all_goals
      obtain rfl := Except.ok.inj h
      simp [emit, mapInsert, listMapSet, Ne.symm ht]

theorem release_milestone_payment_escrows (C : Config) (st : State)
    (escrow : EscrowDetails) (mid : Nat) (st1 : State)
    (h : release_milestone_payment C st escrow mid = .ok st1) :
    st1.escrows = st.escrows := by
  simp only [release_milestone_payment] at h
  repeat' split at h
  all_goals try exact Except.noConfusion h
  obtain rfl := Except.ok.inj h
  rfl

theorem approve_milestone_term_pres (C : Config) (st st1 : State) (c : AccountId)
    (t1 : TaskId) (m : Nat) (t : TaskId) (esc : EscrowDetails)
    (hesc : st.escrows t = some esc) (hterm : isTerminal esc.state)
    (h : approve_milestone C st c t1 m = .ok st1) :
    st1.escrows t = st.escrows t := by
  have hne := isTerminal_ne esc.state hterm
  by_cases ht : t1 = t
  · subst ht
    simp only [approve_milestone, hesc] at h
    rw [if_neg hne.2] at h
    exact Except.noConfusion h
  · simp only [approve_milestone] at h
    repeat' split at h
    all_goals try exact Except.noConfusion h
    all_goals
      first
      | (obtain rfl := Except.ok.inj h
         simp [emit, mapInsert, listMapSet, Ne.symm ht])
      | (rw [release_milestone_payment_escrows _ _ _ _ _ h]
         simp [emit, mapInsert, listMapSet, Ne.symm ht])

theorem bcValidate_fresh (C : Config) (st : State) :
    ∀ (reqs : List BatchCreateEscrowRequest) (tot tot2 : Balance),
      bcValidate C st tot reqs = .ok tot2 →
      ∀ r ∈ reqs, st.escrows r.task_id = none := by
  intro reqs
  induction reqs with
  | nil => intro tot tot2 h r hr; exact absurd hr (List.not_mem_nil r)
  | cons q rest ih =>
      intro tot tot2 h r hr
      simp only [bcValidate] at h
      by_cases h1 : 0 < q.amount
      · rw [if_pos h1] at h
        by_cases h2 : q.amount ≤ C.maxEscrowAmount
        · rw [if_pos h2] at h
          by_cases h3 : (st.escrows q.task_id).isSome = true
          · rw [if_pos h3] at h
            exact Except.noConfusion h
          · rw [if_neg h3] at h
            rcases List.mem_cons.mp hr with rfl | hr2
            · exact Option.not_isSome_iff_eq_none.mp h3
            · repeat' split at h
              all_goals try exact Except.noConfusion h
              exact ih _ _ h r hr2
        · rw [if_neg h2] at h
          exact Except.noConfusion h
      · rw [if_neg h1] at h
        exact Except.noConfusion h

theorem bcExecute_pres (C : Config) (u : AccountId) (blk : Nat) (t : TaskId) :
    ∀ (reqs : List BatchCreateEscrowRequest) (stc : State) (i s : Nat)
      (st2 : State) (a : Nat) (b : Option Nat),
      (∀ r ∈ reqs, r.task_id ≠ t) →
      bcExecute C u blk stc i s reqs = .ok (st2, a, b) →
      st2.escrows t = stc.escrows t := by
  intro reqs
  induction reqs with
  | nil =>
      intro stc i s st2 a b _ h
      simp only [bcExecute] at h
      have h2 : stc = st2 := congrArg Prod.fst (Except.ok.inj h)
      rw [← h2]
  | cons q rest ih =>
      intro stc i s st2 a b hfr h
      have hq : q.task_id ≠ t := hfr q (List.mem_cons_self q rest)
      simp only [bcExecute] at h
      repeat' split at h
      all_goals try exact Except.noConfusion h
      all_goals
        first
        | (have h2 : stc = st2 := congrArg Prod.fst (Except.ok.inj h)
           rw [← h2])
        | (rw [ih _ _ _ _ _ _ (fun r hr => hfr r (List.mem_cons_of_mem q hr)) h]
           simp [emit, mapInsert, listMapSet, Ne.symm hq])

theorem brValidate_acc (st : State) (caller : AccountId) :
    ∀ (l : List TaskId) (tot tot2 : Balance),
      brValidate st caller tot l = .ok tot2 →
      ∀ i ∈ l, ∃ e, st.escrows i = some e ∧ e.state = EscrowState.Accepted := by
  intro l
  induction l with
  | nil => intro tot tot2 h i hi; exact absurd hi (List.not_mem_nil i)
  | cons q rest ih =>
      intro tot tot2 h i hi
      cases hx : st.escrows q with
      | none =>
          simp only [brValidate, hx] at h
          exact Except.noConfusion h
      | some e =>
          simp only [brValidate, hx] at h
          by_cases h1 : e.user = caller
          · rw [if_pos h1] at h
            by_cases h2 : e.state = EscrowState.Accepted
            · rw [if_pos h2] at h
              rcases List.mem_cons.mp hi with rfl | hi2
              · exact ⟨e, hx, h2⟩
              · exact ih _ _ h i hi2
            · rw [if_neg h2] at h
              exact Except.noConfusion h
          · rw [if_neg h1] at h
            exact Except.noConfusion h

theorem brExecute_pres (C : Config) (t : TaskId) :
    ∀ (l : List TaskId) (stc : State) (s : Nat) (st2 : State) (s2 : Nat),
      t ∉ l → brExecute C stc s l = .ok (st2, s2) →
      st2.escrows t = stc.escrows t := by
  intro l
  induction l with
  | nil =>
      intro stc s st2 s2 _ h
      simp only [brExecute] at h
      have h2 : stc = st2 := congrArg Prod.fst (Except.ok.inj h)
      rw [← h2]
  | cons q rest ih =>
      intro stc s st2 s2 hnot h
      have hq : q ≠ t := by
        intro e
        subst e
        exact hnot (List.mem_cons_self q rest)
      simp only [brExecute] at h
      repeat' split at h
      all_goals try exact Except.noConfusion h
      all_goals
        rw [ih _ _ _ _ (fun hm => hnot (List.mem_cons_of_mem q hm)) h]
        simp [emit, mapInsert, Ne.symm hq]

theorem brfExecute_term_pres (C : Config) (caller : AccountId) (t : TaskId) :
    ∀ (l : List TaskId) (stc : State) (tot : Balance) (s : Nat)
      (st2 : State) (a : Balance) (b : Nat) (esc : EscrowDetails),
      stc.escrows t = some esc → isTerminal esc.state →
      brfExecute C caller stc tot s l = .ok (st2, a, b) →
      st2.escrows t = stc.escrows t := by
  intro l
  induction l with
  | nil =>
      intro stc tot s st2 a b esc _ _ h
      simp only [brfExecute] at h
      have h2 : stc = st2 := congrArg Prod.fst (Except.ok.inj h)
      rw [← h2]
  | cons q rest ih =>
      intro stc tot s st2 a b esc hesc hterm h
      have hne := isTerminal_ne esc.state hterm
      by_cases hq : q = t
      · subst hq
        simp only [brfExecute, hesc] at h
        rw [if_neg (not_or.mpr hne)] at h
        exact Except.noConfusion h
      · simp only [brfExecute] at h
        repeat' split at h
        all_goals try exact Except.noConfusion h
        all_goals
          refine (ih _ _ _ _ _ _ esc ?_ hterm h).trans ?_
          · simp [emit, mapInsert, Ne.symm hq, hesc]
          · simp [emit, mapInsert, Ne.symm hq]

theorem bdExecute_term_pres (caller : AccountId) (t : TaskId) :
    ∀ (l : List TaskId) (stc : State) (s : Nat) (st2 : State) (s2 : Nat)
      (esc : EscrowDetails),
      stc.escrows t = some esc → isTerminal esc.state →
      bdExecute caller stc s l = .ok (st2, s2) →
      st2.escrows t = stc.escrows t := by
  intro l
  induction l with
  | nil =>
      intro stc s st2 s2 esc _ _ h
      simp only [bdExecute] at h
      have h2 : stc = st2 := congrArg Prod.fst (Except.ok.inj h)
      rw [← h2]
  | cons q rest ih =>
      intro stc s st2 s2 esc hesc hterm h
      have hne := isTerminal_ne esc.state hterm
      by_cases hq : q = t
      · subst hq
        simp only [bdExecute, hesc] at h
        rw [if_neg hne.2] at h
        exact Except.noConfusion h
      · simp only [bdExecute] at h
        repeat' split at h
        all_goals try exact Except.noConfusion h
        all_goals
          refine (ih _ _ _ _ esc ?_ hterm h).trans ?_
          · simp [emit, mapInsert, Ne.symm hq, hesc]
          · simp [emit, mapInsert, Ne.symm hq]

theorem batch_create_term_pres (C : Config) (st st1 : State) (u : AccountId)
    (reqs : List BatchCreateEscrowRequest) (t : TaskId) (esc : EscrowDetails)
    (hesc : st.escrows t = some esc)
    (h : batch_create_escrow C st u reqs = .ok st1) :
    st1.escrows t = st.escrows t := by
  simp only [batch_create_escrow] at h
  split at h
  · split at h
    · exact Except.noConfusion h
    · split at h
      · exact Except.noConfusion h
      · split at h
        · exact Except.noConfusion h
        · rename_i total hval
          split at h
          · split at h
            · exact Except.noConfusion h
            · rename_i st2 successful failureIdx hexec
              split at h
              · exact Except.noConfusion h
              · obtain rfl := Except.ok.inj h
                have hfr : ∀ r ∈ reqs, r.task_id ≠ t := by
                  intro r hr e
                  have hn := bcValidate_fresh C st reqs 0 total hval r hr
                  rw [e, hesc] at hn
                  exact Option.noConfusion hn
                have hp := bcExecute_pres C u st.block t reqs _ 0 0 st2
                  successful none hfr hexec
                exact hp
          · exact Except.noConfusion h
  · exact Except.noConfusion h

theorem batch_release_term_pres (C : Config) (st st1 : State) (c : AccountId)
    (l : List TaskId) (t : TaskId) (esc : EscrowDetails)
    (hesc : st.escrows t = some esc) (hterm : isTerminal esc.state)
    (h : batch_release_payment C st c l = .ok st1) :
    st1.escrows t = st.escrows t := by
  have hne := isTerminal_ne esc.state hterm
  simp only [batch_release_payment] at h
  split at h
  · split at h
    · exact Except.noConfusion h
    · split at h
      · exact Except.noConfusion h
      · rename_i total hval
        split at h
        · exact Except.noConfusion h
        · rename_i st2 successful hexec
          obtain rfl := Except.ok.inj h
          have hnot : t ∉ l := by
            intro hm
            obtain ⟨e, he, hacc⟩ := brValidate_acc st c l 0 total hval t hm
            rw [hesc] at he
            cases Option.some.inj he
            exact hne.2 hacc
          exact brExecute_pres C t l st 0 st2 successful hnot hexec
  · exact Except.noConfusion h

theorem batch_refund_term_pres (C : Config) (st st1 : State) (c : AccountId)
    (l : List TaskId) (t : TaskId) (esc : EscrowDetails)
    (hesc : st.escrows t = some esc) (hterm : isTerminal esc.state)
    (h : batch_refund_escrow C st c l = .ok st1) :
    st1.escrows t = st.escrows t := by
  simp only [batch_refund_escrow] at h
  split at h
  · split at h
    · exact Except.noConfusion h
    · split at h
      · exact Except.noConfusion h
      · rename_i st2 total successful hexec
        obtain rfl := Except.ok.inj h
        exact brfExecute_term_pres C c t l st 0 0 st2 total successful esc
          hesc hterm hexec
  · exact Except.noConfusion h

theorem batch_dispute_term_pres (C : Config) (st st1 : State) (c : AccountId)
    (l : List TaskId) (t : TaskId) (esc : EscrowDetails)
    (hesc : st.escrows t = some esc) (hterm : isTerminal esc.state)
    (h : batch_dispute_escrow C st c l = .ok st1) :
    st1.escrows t = st.escrows t := by
  simp only [batch_dispute_escrow] at h
  split at h
  · split at h
    · exact Except.noConfusion h
    · split at h
      · exact Except.noConfusion h
      · rename_i st2 successful hexec
        obtain rfl := Except.ok.inj h
        exact bdExecute_term_pres c t l st 0 st2 successful esc hesc hterm hexec
  · exact Except.noConfusion h

/-- C2 counterexample: the escrow of task 0 in `termState` is Completed (a
terminal state), yet `override_refund_amount` — which checks the stored
policy's override permission but never the escrow state — succeeds on it and
moves the escrow to Refunded, re-running refund accounting. -/
theorem C2_counterexample :
    termState.escrows 0 = some doneEscrow ∧ isTerminal doneEscrow.state ∧
    (override_refund_amount escConfig termState 3 0 500).map
      (fun s1 => (s1.escrows 0).map EscrowDetails.state) =
      .ok (some .Refunded) :=
  ⟨rfl, Or.inl rfl, rfl⟩

/-- C2 (amended): terminal escrow states are absorbing for every modelled
escrow dispatch except `override_refund_amount`: whenever the stored escrow
of task `t` is in a terminal state, dispatching `accept_task`,
`release_payment`, `refund_escrow`, `dispute_escrow`, participant and
milestone operations, or any of the four batch operations — at any arguments
whatsoever — leaves the stored escrow entry of `t` unchanged (errors are
rolled back by the host wrapper, successes never write to `t`). -/
theorem C2_terminal_absorbing (C : Config) (st : State) (t : TaskId)
    (esc : EscrowDetails) (hesc : st.escrows t = some esc)
    (hterm : isTerminal esc.state) :
    (∀ a t1 d,
      (runDispatch (fun s => accept_task C s a t1 d) st).1.escrows t = st.escrows t) ∧
    (∀ c t1,
      (runDispatch (fun s => release_payment C s c t1) st).1.escrows t = st.escrows t) ∧
    (∀ c t1,
      (runDispatch (fun s => refund_escrow s c t1) st).1.escrows t = st.escrows t) ∧
    (∀ c t1,
      (runDispatch (fun s => dispute_escrow s c t1) st).1.escrows t = st.escrows t) ∧
    (∀ c t1 p r a,
      (runDispatch (fun s => add_participant C s c t1 p r a) st).1.escrows t = st.escrows t) ∧
    (∀ c t1 p,
      (runDispatch (fun s => remove_participant s c t1 p) st).1.escrows t = st.escrows t) ∧
    (∀ c t1 de a ra,
      (runDispatch (fun s => add_milestone C s c t1 de a ra) st).1.escrows t = st.escrows t) ∧
    (∀ c t1 m,
      (runDispatch (fun s => complete_milestone s c t1 m) st).1.escrows t = st.escrows t) ∧
    (∀ c t1 m,
      (runDispatch (fun s => approve_milestone C s c t1 m) st).1.escrows t = st.escrows t) ∧
    (∀ u reqs,
      (runDispatch (fun s => batch_create_escrow C s u reqs) st).1.escrows t = st.escrows t) ∧
    (∀ c l,
      (runDispatch (fun s => batch_release_payment C s c l) st).1.escrows t = st.escrows t) ∧
    (∀ c l,
      (runDispatch (fun s => batch_refund_escrow C s c l) st).1.escrows t = st.escrows t) ∧
    (∀ c l,
      (runDispatch (fun s => batch_dispute_escrow C s c l) st).1.escrows t = st.escrows t) := by
  refine ⟨?_, ?_, ?_, ?_, ?_, ?_, ?_, ?_, ?_, ?_, ?_, ?_, ?_⟩
  · intro a t1 d
    cases hres : accept_task C st a t1 d with
    | error e => simp [runDispatch, hres]
    | ok s1 =>
        simp only [runDispatch, hres]
        exact accept_task_term_pres C st s1 a t1 d t esc hesc hterm hres
  · intro c t1
    cases hres : release_payment C st c t1 with
    | error e => simp [runDispatch, hres]
    | ok s1 =>
        simp only [runDispatch, hres]
        exact release_payment_term_pres C st s1 c t1 t esc hesc hterm hres
  · intro c t1
    cases hres : refund_escrow st c t1 with
    | error e => simp [runDispatch, hres]
    | ok s1 =>
        simp only [runDispatch, hres]
        exact refund_escrow_term_pres st s1 c t1 t esc hesc hterm hres
  · intro c t1
    cases hres : dispute_escrow st c t1 with
    | error e => simp [runDispatch, hres]
    | ok s1 =>
        simp only [runDispatch, hres]
        exact dispute_escrow_term_pres st s1 c t1 t esc hesc hterm hres
  · intro c t1 p r a
    cases hres : add_participant C st c t1 p r a with
    | error e => simp [runDispatch, hres]
    | ok s1 =>
        simp only [runDispatch, hres]
        exact add_participant_term_pres C st s1 c t1 p r a t esc hesc hterm hres
  · intro c t1 p
    cases hres : remove_participant st c t1 p with
    | error e => simp [runDispatch, hres]
    | ok s1 =>
        simp only [runDispatch, hres]
        exact remove_participant_term_pres st s1 c t1 p t esc hesc hterm hres
  · intro c t1 de a ra
    cases hres : add_milestone C st c t1 de a ra with
    | error e => simp [runDispatch, hres]
    | ok s1 =>
        simp only [runDispatch, hres]
        exact add_milestone_term_pres C st s1 c t1 de a ra t esc hesc hterm hres
  · intro c t1 m
    cases hres : complete_milestone st c t1 m with
    | error e => simp [runDispatch, hres]
    | ok s1 =>
        simp only [runDispatch, hres]
        exact complete_milestone_term_pres st s1 c t1 m t esc hesc hterm hres
  · intro c t1 m
    cases hres : approve_milestone C st c t1 m with
    | error e => simp [runDispatch, hres]
    | ok s1 =>
        simp only [runDispatch, hres]
        exact approve_milestone_term_pres C st s1 c t1 m t esc hesc hterm hres
  · intro u reqs
    cases hres : batch_create_escrow C st u reqs with
    | error e => simp [runDispatch, hres]
    | ok s1 =>
        simp only [runDispatch, hres]
        exact batch_create_term_pres C st s1 u reqs t esc hesc hres
  · intro c l
    cases hres : batch_release_payment C st c l with
    | error e => simp [runDispatch, hres]
    | ok s1 =>
        simp only [runDispatch, hres]
        exact batch_release_term_pres C st s1 c l t esc hesc hterm hres
  · intro c l
    cases hres : batch_refund_escrow C st c l with
    | error e => simp [runDispatch, hres]
    | ok s1 =>
        simp only [runDispatch, hres]
        exact batch_refund_term_pres C st s1 c l t esc hesc hterm hres
  · intro c l
    cases hres : batch_dispute_escrow C st c l with
    | error e => simp [runDispatch, hres]
    | ok s1 =>
        simp only [runDispatch, hres]
        exact batch_dispute_term_pres C st s1 c l t esc hesc hterm hres

/-- C2 witness: the amended statement applied to the concrete terminal state
`termState`: a `refund_escrow` dispatch on the Completed escrow of task 0
leaves the stored entry unchanged. -/
theorem C2_terminal_absorbing_witness :
    (runDispatch (fun s => refund_escrow s 1 0) termState).1.escrows 0 =
      termState.escrows 0 :=
  (C2_terminal_absorbing escConfig termState 0 doneEscrow rfl
    (Or.inl rfl)).2.2.1 1 0

end Esc

end ZeroState
